import Mathlib

/-!
# nuki-exporter: a shallow embedding of `nuki-exporter.go`

The development models the polling core of the exporter:

* `getMetrics` (fetch, decode, classify by reflection, publish),
* `setPrometheusMetric` (register-once and set, plus the freshness gauge),
* `systemAlive` (the local liveness read and the watchdog notification).

Go values are modelled as follows.  A Go `string` is a Lean `String`, a Go
`int`/`int64` is an `Int` (no arithmetic is performed on them, the platform
width only matters when a JSON number is decoded).  A `float64` gauge value is
represented by the integer it denotes (`float64OfInt` performs the rounding of
the conversion).  A run ends either by returning or by a Go panic; both
outcomes carry the process state reached.  The effects on the Prometheus
client, the logger (warnings only) and the supervisor are recorded in a trace.
Debug-level log lines and the echo of the body on standard output do not
influence any state and are left out of the trace.
-/

namespace NukiExporter

/-! ## Go standard library helpers -/

/-- Go `strings.HasPrefix(s, prefix)`. -/
def HasPrefix (s pre : String) : Bool :=
  pre.data.isPrefixOf s.data

/-- Go `strings.TrimPrefix(s, prefix)`. -/
def TrimPrefix (s pre : String) : String :=
  if HasPrefix s pre then String.mk (s.data.drop pre.data.length) else s

/-- Go `strings.ToLower(s)`, on the ASCII letters (the identifiers it is
applied to are Go field names written in ASCII). -/
def ToLower (s : String) : String :=
  String.mk (s.data.map Char.toLower)

/-- Go `strconv.FormatInt(v, 10)`: the decimal digits of the magnitude, most
significant first, preceded by `-` for a negative number. -/
def FormatInt (v : Int) : String :=
  if v < 0 then String.mk ('-' :: Nat.toDigits 10 v.natAbs)
  else String.mk (Nat.toDigits 10 v.natAbs)

/-- The value of a decimal digit character. -/
def digitValue (c : Char) : Nat :=
  c.toNat - 48

/-- The number a string of decimal digits denotes, read left to right. -/
def readDecimal (cs : List Char) : Nat :=
  cs.foldl (fun acc c => 10 * acc + digitValue c) 0

/-- The conversion `float64(v)` of an integer, given as the integer the
resulting double denotes: exact below `2^53`, otherwise rounded to 53
significant bits, ties to even. -/
def float64OfInt (v : Int) : Int :=
  let a := v.natAbs
  if a < 2 ^ 53 then v
  else
    let e := Nat.log2 a - 52
    let q := a / 2 ^ e
    let r := a % 2 ^ e
    let half := 2 ^ (e - 1)
    let q1 := if half < r ∨ (r = half ∧ q % 2 = 1) then q + 1 else q
    if v < 0 then -((q1 * 2 ^ e : Nat) : Int) else ((q1 * 2 ^ e : Nat) : Int)

/-! ## Data model -/

/-- Go `type NukiDevice struct`. -/
structure NukiDevice where
  LabelDeviceType : Int
  LabelNukiID : Int
  LabelName : String
  LabelFirmwareVersion : String
  Mode : Int
  State : Int
  DoorsensorState : Int
  BatteryChargeState : Int
  NumBatteryCharging : Int
  NumBatteryCritical : Int
  deriving DecidableEq, Repr

/-- The zero value of `NukiDevice` (`var nukiDevice NukiDevice`). -/
def NukiDevice.zero : NukiDevice :=
  ⟨0, 0, "", "", 0, 0, 0, 0, 0, 0⟩

/-- The value of a struct field as seen through `reflect`: the kinds occurring
in `NukiDevice` are `int` and `string`. -/
inductive FieldValue where
  | int (v : Int)
  | string (s : String)
  deriving DecidableEq, Repr

/-- The view `reflect.ValueOf(nukiDevice)` gives of the struct: field `i` has
name `typeOfNukiDevice.Field(i).Name` and value `nd.Field(i)`, in the declared
order; `nd.NumField()` is the length of the list. -/
def NukiDevice.reflect (nd : NukiDevice) : List (String × FieldValue) :=
  [ ("LabelDeviceType", .int nd.LabelDeviceType),
    ("LabelNukiID", .int nd.LabelNukiID),
    ("LabelName", .string nd.LabelName),
    ("LabelFirmwareVersion", .string nd.LabelFirmwareVersion),
    ("Mode", .int nd.Mode),
    ("State", .int nd.State),
    ("DoorsensorState", .int nd.DoorsensorState),
    ("BatteryChargeState", .int nd.BatteryChargeState),
    ("NumBatteryCharging", .int nd.NumBatteryCharging),
    ("NumBatteryCritical", .int nd.NumBatteryCritical) ]

/-- The first reflection loop of `getMetrics`, run over the fields still to be
visited with the `labels` and `labelValues` slices built so far: a field whose
name starts with `Label` appends its trimmed, lower-cased name and its value
(a string as it is, anything else through `strconv.FormatInt(_, 10)`). -/
def labelLoop : List (String × FieldValue) → List String × List String →
    List String × List String
  | [], acc => acc
  | (key, value) :: rest, (labels, labelValues) =>
    if HasPrefix key "Label" then
      let labelValue :=
        match value with
        | .string s => s
        | .int v => FormatInt v
      labelLoop rest (labels ++ [ToLower (TrimPrefix key "Label")], labelValues ++ [labelValue])
    else
      labelLoop rest (labels, labelValues)

/-- The label step of `getMetrics` for one device: both slices start empty. -/
def labelStep (nd : NukiDevice) : List String × List String :=
  labelLoop nd.reflect ([], [])

/-! ## The bridge payload and `json.Unmarshal` -/

/-- The syntax tree of a JSON text.  A number literal written without fraction
and exponent part is `int`; any other number literal is kept as its text. -/
inductive JSON where
  | null
  | bool (b : Bool)
  | int (n : Int)
  | frac (lit : String)
  | str (s : String)
  | arr (items : List JSON)
  | obj (members : List (String × JSON))

/-- The anonymous struct type of the field `NukiJSON.LastKnownState`.  The
timestamp is kept as the text it was parsed from (`none` is the zero time). -/
structure LastKnownState where
  Mode : Int
  State : Int
  DoorsensorState : Int
  BatteryChargeState : Int
  StateName : String
  BatteryCritical : Bool
  BatteryCharging : Bool
  Timestamp : Option String
  deriving DecidableEq, Repr

/-- Go `type NukiJSON struct`. -/
structure NukiJSON where
  DeviceType : Int
  NukiID : Int
  Name : String
  FirmwareVersion : String
  LastKnownState : LastKnownState
  deriving DecidableEq, Repr

/-- The zero value of the nested state struct. -/
def LastKnownState.zero : LastKnownState :=
  ⟨0, 0, 0, 0, "", false, false, none⟩

/-- The zero value of `NukiJSON`, with which every slice element starts. -/
def NukiJSON.zero : NukiJSON :=
  ⟨0, 0, "", "", LastKnownState.zero⟩

/-- The part of `*http.Response` the program looks at, with what
`ioutil.ReadAll(res.Body)` returns for it: the bytes read and the read error
(`none` for a nil error). -/
structure Response where
  StatusCode : Int
  Body : String
  BodyErr : Option String
  deriving DecidableEq, Repr

/-- The pair `(res, err)` returned by `httpClient.Do` and `http.Get`: a
response and a nil error, a nil response and an error, or (when the redirect
policy gives up) both a response and an error.  The two are never both nil. -/
inductive HTTPResult where
  | ok (res : Response)
  | failed (err : String)
  | failedWithResponse (res : Response) (err : String)
  deriving DecidableEq, Repr

/-- The `res` of the pair, `none` for a nil pointer. -/
def HTTPResult.res : HTTPResult → Option Response
  | .ok r => some r
  | .failed _ => none
  | .failedWithResponse r _ => some r

/-- The `err` of the pair, `none` for a nil error. -/
def HTTPResult.err : HTTPResult → Option String
  | .ok _ => none
  | .failed e => some e
  | .failedWithResponse _ e => some e

/-- What the process is given by its platform and collaborators. -/
structure Env where
  /-- The width of Go `int` on the target (32 on the ARM builds, else 64). -/
  intSize : Nat
  /-- The JSON grammar: the syntax tree of a text, `none` if it is not JSON. -/
  parseJSON : String → Option JSON
  /-- Does `time.Time.UnmarshalJSON` accept this string (RFC 3339)? -/
  isRFC3339 : String → Bool
  /-- The error of `http.NewRequest("GET", url, nil)`, `none` on success. -/
  NewRequest : String → Option String
  /-- The answer of `httpClient.Do(req)` to a `GET` of the URL. -/
  Do : String → HTTPResult
  /-- The answer of `http.Get(url)`. -/
  Get : String → HTTPResult
  /-- The wall clock: `time.Now().Unix()` at the `k`-th read of the process. -/
  now : Nat → Int

/-- Case folding of `encoding/json` when it matches an object key against a
field name: ASCII letters fold to lower case, and the Kelvin sign and the long
s fold with `k` and `s`. -/
def foldRune (c : Char) : Char :=
  if c = Char.ofNat 0x212A then 'k'
  else if c = Char.ofNat 0x17F then 's'
  else c.toLower

/-- Does the object key `key` select the field tagged `name`?  An exact match
is a match, and so is a match up to case folding. -/
def EqualFold (name key : String) : Bool :=
  name.data.map foldRune == key.data.map foldRune

/-- Does `n` fit a signed integer of `bits` bits? -/
def fitsInt (bits : Nat) (n : Int) : Bool :=
  decide (-(2 ^ (bits - 1) : Int) ≤ n) && decide (n < (2 ^ (bits - 1) : Int))

/-- Decoding into an `int` field holding `old`: `null` leaves the field alone,
an integer literal in range is stored, everything else is a type error. -/
def decodeInt (env : Env) (old : Int) : JSON → Except String Int
  | .null => .ok old
  | .int n =>
    if fitsInt env.intSize n then .ok n
    else .error "json: cannot unmarshal number into Go struct field of type int"
  | .frac lit => .error ("json: cannot unmarshal number " ++ lit ++ " into Go struct field of type int")
  | _ => .error "json: cannot unmarshal value into Go struct field of type int"

/-- Decoding into a `string` field holding `old`. -/
def decodeString (old : String) : JSON → Except String String
  | .null => .ok old
  | .str s => .ok s
  | _ => .error "json: cannot unmarshal value into Go struct field of type string"

/-- Decoding into a `bool` field holding `old`. -/
def decodeBool (old : Bool) : JSON → Except String Bool
  | .null => .ok old
  | .bool b => .ok b
  | _ => .error "json: cannot unmarshal value into Go struct field of type bool"

/-- Decoding into the `time.Time` field: `null` is ignored, a string must be
an RFC 3339 time, anything else is rejected by `Time.UnmarshalJSON`. -/
def decodeTime (env : Env) (old : Option String) : JSON → Except String (Option String)
  | .null => .ok old
  | .str s =>
    if env.isRFC3339 s then .ok (some s)
    else .error ("parsing time " ++ s ++ ": cannot parse as RFC 3339")
  | _ => .error "Time.UnmarshalJSON: input is not a JSON string"

/-- One member `key: val` of the `lastKnownState` object is stored in the
field whose tag it matches; a key matching no tag is skipped. -/
def decodeStateMember (env : Env) (v : LastKnownState) (key : String) (val : JSON) :
    Except String LastKnownState :=
  if EqualFold "mode" key then
    (decodeInt env v.Mode val).map fun n => { v with Mode := n }
  else if EqualFold "state" key then
    (decodeInt env v.State val).map fun n => { v with State := n }
  else if EqualFold "doorsensorState" key then
    (decodeInt env v.DoorsensorState val).map fun n => { v with DoorsensorState := n }
  else if EqualFold "batteryChargeState" key then
    (decodeInt env v.BatteryChargeState val).map fun n => { v with BatteryChargeState := n }
  else if EqualFold "stateName" key then
    (decodeString v.StateName val).map fun s => { v with StateName := s }
  else if EqualFold "batteryCritical" key then
    (decodeBool v.BatteryCritical val).map fun b => { v with BatteryCritical := b }
  else if EqualFold "batteryCharging" key then
    (decodeBool v.BatteryCharging val).map fun b => { v with BatteryCharging := b }
  else if EqualFold "timestamp" key then
    (decodeTime env v.Timestamp val).map fun t => { v with Timestamp := t }
  else .ok v

/-- The members of an object are decoded one after the other into the same
struct value, so a repeated key overwrites what an earlier one stored. -/
def decodeStateMembers (env : Env) : List (String × JSON) → LastKnownState →
    Except String LastKnownState
  | [], v => .ok v
  | (key, val) :: rest, v =>
    match decodeStateMember env v key val with
    | .error e => .error e
    | .ok v1 => decodeStateMembers env rest v1

/-- Decoding into the nested struct holding `old`. -/
def decodeState (env : Env) (old : LastKnownState) : JSON → Except String LastKnownState
  | .null => .ok old
  | .obj members => decodeStateMembers env members old
  | _ => .error "json: cannot unmarshal value into Go struct field NukiJSON.lastKnownState"

/-- One member of a device object. -/
def decodeDeviceMember (env : Env) (v : NukiJSON) (key : String) (val : JSON) :
    Except String NukiJSON :=
  if EqualFold "deviceType" key then
    (decodeInt env v.DeviceType val).map fun n => { v with DeviceType := n }
  else if EqualFold "nukiId" key then
    (decodeInt env v.NukiID val).map fun n => { v with NukiID := n }
  else if EqualFold "name" key then
    (decodeString v.Name val).map fun s => { v with Name := s }
  else if EqualFold "firmwareVersion" key then
    (decodeString v.FirmwareVersion val).map fun s => { v with FirmwareVersion := s }
  else if EqualFold "lastKnownState" key then
    (decodeState env v.LastKnownState val).map fun st => { v with LastKnownState := st }
  else .ok v

/-- The members of a device object, in the order of the text. -/
def decodeDeviceMembers (env : Env) : List (String × JSON) → NukiJSON →
    Except String NukiJSON
  | [], v => .ok v
  | (key, val) :: rest, v =>
    match decodeDeviceMember env v key val with
    | .error e => .error e
    | .ok v1 => decodeDeviceMembers env rest v1

/-- Decoding one array element into a fresh `NukiJSON`. -/
def decodeDevice (env : Env) : JSON → Except String NukiJSON
  | .null => .ok NukiJSON.zero
  | .obj members => decodeDeviceMembers env members NukiJSON.zero
  | _ => .error "json: cannot unmarshal value into Go value of type main.NukiJSON"

/-- The elements of the array, first to last. -/
def decodeDevices (env : Env) : List JSON → Except String (List NukiJSON)
  | [] => .ok []
  | item :: rest =>
    match decodeDevice env item with
    | .error e => .error e
    | .ok d =>
      match decodeDevices env rest with
      | .error e => .error e
      | .ok ds => .ok (d :: ds)

/-- The call `json.Unmarshal(body, &nukiJSON)` with `nukiJSON` a nil
`[]NukiJSON`: the decoded slice, or the error returned.  (The library goes on
decoding after a type error and reports the error at the end; the caller only
tests the error, so the decoding stops at the first one here.) -/
def Unmarshal (env : Env) (body : String) : Except String (List NukiJSON) :=
  match env.parseJSON body with
  | none => .error "invalid character looking for beginning of value"
  | some .null => .ok []
  | some (.arr items) => decodeDevices env items
  | some _ => .error "json: cannot unmarshal value into Go value of type []main.NukiJSON"

/-! ## The Prometheus client and the process state -/

/-- A `*prometheus.GaugeVec`: its fully-qualified name, its variable label
names, and the gauge of every label-value tuple used so far. -/
structure GaugeVec where
  name : String
  labelNames : List String
  values : List String → Option Int

/-- The effects recorded in the trace. -/
inductive Event where
  /-- A line logged through `level.Warn`. -/
  | warn (msg : String)
  /-- A collector accepted by `prometheus.MustRegister`. -/
  | register (name : String) (labelNames : List String)
  /-- The statement `exposed[key].WithLabelValues(labelValues...).Set(float64(value))`. -/
  | gaugeSet (key : String) (labelValues : List String) (value : Int)
  /-- The statement `lastUpdate.WithLabelValues("global").Set(float64(seconds))`. -/
  | lastUpdateSet (seconds : Int)
  /-- The call `daemon.SdNotify(false, daemon.SdNotifyWatchdog)`. -/
  | notifyWatchdog
  deriving DecidableEq, Repr

/-- The package-level variables of the program and the ghost trace. -/
structure World where
  bridgeHost : String
  /-- The variable `credentials.Token`. -/
  token : String
  /-- The map `exposed`. -/
  exposed : String → Option GaugeVec
  /-- The names of the collectors registered with the default registry. -/
  registered : List String
  /-- The gauges of `lastUpdate` (name `nuki_lastUpdate`, label `scope`). -/
  lastUpdate : List String → Option Int
  /-- The number of wall-clock reads made so far. -/
  clockReads : Nat
  trace : List Event

/-- How a call ends: it returns, or a panic unwinds it (nothing in the program
recovers, so the process then dies); `w` is the state reached. -/
inductive Outcome where
  | returned (w : World)
  | panicked (w : World) (msg : String)

/-- The state an outcome carries. -/
def Outcome.world : Outcome → World
  | .returned w => w
  | .panicked w _ => w

/-- Did the call return to its caller? -/
def Outcome.isReturned : Outcome → Bool
  | .returned _ => true
  | .panicked _ _ => false

/-- Sequencing: the statements `f` that follow a call run in the state it
returned; a panic skips them. -/
def Outcome.andThen (o : Outcome) (f : World → Outcome) : Outcome :=
  match o with
  | .returned w => f w
  | .panicked w msg => .panicked w msg

/-- The state at process start: `exposed` is the empty map and `init` has
registered `lastUpdate`, which holds no gauge yet. -/
def World.initial (bridgeHost token : String) : World :=
  { bridgeHost := bridgeHost, token := token, exposed := fun _ => none,
    registered := ["nuki_lastUpdate"], lastUpdate := fun _ => none,
    clockReads := 0, trace := [] }

/-- Append an event to the trace. -/
def World.emit (w : World) (e : Event) : World :=
  { w with trace := w.trace ++ [e] }

/-- The call `level.Warn(lg).Log("msg", msg)`. -/
def World.warn (w : World) (msg : String) : World :=
  w.emit (.warn msg)

/-- A character allowed in a metric name (`[a-zA-Z0-9_:]`). -/
def isNameChar (c : Char) : Bool :=
  c.isAlphanum || c = '_' || c = ':'

/-- The metric names the client library accepts: `[a-zA-Z_:][a-zA-Z0-9_:]*`. -/
def validMetricName (s : String) : Bool :=
  match s.data with
  | [] => false
  | c :: cs => !c.isDigit && (c :: cs).all isNameChar

/-- The label names the client library accepts: `[a-zA-Z_][a-zA-Z0-9_]*`, not
starting with the reserved `__`. -/
def validLabelName (s : String) : Bool :=
  match s.data with
  | [] => false
  | c :: cs => !c.isDigit && (c :: cs).all (fun x => x.isAlphanum || x = '_')
      && !HasPrefix s "__"

/-- The call `prometheus.MustRegister(gv)`: it panics when the descriptor is
invalid (name, label names, a repeated label name) or when a collector of that
name is registered already. -/
def MustRegister (gv : GaugeVec) (w : World) : Outcome :=
  if validMetricName gv.name && gv.labelNames.all validLabelName
      && decide gv.labelNames.Nodup && !decide (gv.name ∈ w.registered) then
    .returned ({ w with registered := w.registered ++ [gv.name] }.emit
      (.register gv.name gv.labelNames))
  else
    .panicked w ("prometheus: cannot register " ++ gv.name)

/-- The tail of `setPrometheusMetric`, with `gv` the vector `exposed[key]`:
`WithLabelValues` panics unless it is given as many values as the vector has
label names; then the gauge of the tuple is set, and `lastUpdate` is set to
the seconds read from the clock. -/
def setAndTouch (env : Env) (key : String) (value : Int) (labelValues : List String)
    (gv : GaugeVec) (w : World) : Outcome :=
  if labelValues.length ≠ gv.labelNames.length then
    .panicked w "inconsistent label cardinality"
  else
    let gv1 : GaugeVec :=
      { gv with values := fun t => if t = labelValues then some (float64OfInt value) else gv.values t }
    let w1 := { w with exposed := fun k => if k = key then some gv1 else w.exposed k }.emit
      (.gaugeSet key labelValues value)
    let seconds := env.now w1.clockReads
    .returned ({ w1 with
      clockReads := w1.clockReads + 1,
      lastUpdate := fun t => if t = ["global"] then some (float64OfInt seconds) else w1.lastUpdate t }.emit
      (.lastUpdateSet seconds))

/-- Go `func setPrometheusMetric(key string, value int, labels []string,
labelValues []string)`. -/
def setPrometheusMetric (env : Env) (key : String) (value : Int)
    (labels labelValues : List String) (w : World) : Outcome :=
  match w.exposed key with
  | some gv => setAndTouch env key value labelValues gv w
  | none =>
    let gv : GaugeVec := { name := "nuki_" ++ key, labelNames := labels, values := fun _ => none }
    (MustRegister gv { w with exposed := fun k => if k = key then some gv else w.exposed k }).andThen
      (setAndTouch env key value labelValues gv)

/-! ## The poll cycle -/

/-- The second reflection loop of `getMetrics` over the fields still to be
visited: a field whose name starts with neither `Label` nor `Ignore` is read
with `Int()` (which panics on a string) and handed to `setPrometheusMetric`. -/
def metricLoop (env : Env) (labels labelValues : List String) :
    List (String × FieldValue) → World → Outcome
  | [], w => .returned w
  | (key, value) :: rest, w =>
    if !(HasPrefix key "Label" || HasPrefix key "Ignore") then
      match value with
      | .string _ => .panicked w "reflect: call of reflect.Value.Int on string Value"
      | .int v =>
        (setPrometheusMetric env key v labels labelValues w).andThen
          (metricLoop env labels labelValues rest)
    else metricLoop env labels labelValues rest w

/-- The assignments at the head of the loop body: the two flags become 0/1 and
the other fields are copied into the variable `nukiDevice`. -/
def assignDevice (nukiDevice : NukiDevice) (nukiJSONDevice : NukiJSON) : NukiDevice :=
  let nukiDevice := { nukiDevice with NumBatteryCritical :=
    match nukiJSONDevice.LastKnownState.BatteryCritical with
    | false => 0
    | true => 1 }
  let nukiDevice := { nukiDevice with NumBatteryCharging :=
    match nukiJSONDevice.LastKnownState.BatteryCharging with
    | false => 0
    | true => 1 }
  let nukiDevice := { nukiDevice with LabelDeviceType := nukiJSONDevice.DeviceType }
  let nukiDevice := { nukiDevice with LabelFirmwareVersion := nukiJSONDevice.FirmwareVersion }
  let nukiDevice := { nukiDevice with LabelName := nukiJSONDevice.Name }
  let nukiDevice := { nukiDevice with LabelNukiID := nukiJSONDevice.NukiID }
  let nukiDevice := { nukiDevice with BatteryChargeState := nukiJSONDevice.LastKnownState.BatteryChargeState }
  let nukiDevice := { nukiDevice with DoorsensorState := nukiJSONDevice.LastKnownState.DoorsensorState }
  let nukiDevice := { nukiDevice with Mode := nukiJSONDevice.LastKnownState.Mode }
  { nukiDevice with State := nukiJSONDevice.LastKnownState.State }

/-- The loop `for _, nukiJSONDevice := range nukiJSON` over the devices still
to be visited; `nukiDevice` is the one variable declared before the loop. -/
def deviceLoop (env : Env) : List NukiJSON → NukiDevice → World → Outcome
  | [], _, w => .returned w
  | nukiJSONDevice :: rest, nukiDevice, w =>
    let nukiDevice := assignDevice nukiDevice nukiJSONDevice
    let (labels, labelValues) := labelStep nukiDevice
    (metricLoop env labels labelValues nukiDevice.reflect w).andThen
      (deviceLoop env rest nukiDevice)

/-- The URL `getMetrics` requests. -/
def bridgeURL (w : World) : String :=
  "http://" ++ w.bridgeHost ++ ":8080/list?token=" ++ w.token

/-- Go `func getMetrics()`. -/
def getMetrics (env : Env) (w : World) : Outcome :=
  let url := bridgeURL w
  match env.NewRequest url with
  | some err => .returned (w.warn ("Couldn't create request: " ++ err))
  | none =>
    -- `res, err := httpClient.Do(req)`; `err` is not looked at
    match (env.Do url).res with
    | none => .panicked w "runtime error: invalid memory address or nil pointer dereference"
    | some res =>
      if res.StatusCode ≠ 200 then
        .returned (w.warn ("Could not get metrics: " ++ FormatInt res.StatusCode ++ " - " ++ res.Body))
      else
        match res.BodyErr with
        | some err => .returned (w.warn ("Couldn't read in body: " ++ err))
        | none =>
          match Unmarshal env res.Body with
          | .error err => .returned (w.warn ("Couldn't unmarshal json: " ++ err))
          | .ok nukiJSON => deviceLoop env nukiJSON NukiDevice.zero w

/-- Go `func workHorse()`. -/
def workHorse (env : Env) (w : World) : Outcome :=
  getMetrics env w

/-- The URL `systemAlive` reads. -/
def metricsURL (listenAddress metricsPath : String) : String :=
  if !HasPrefix listenAddress ":" then "http://" ++ listenAddress ++ metricsPath
  else "http://127.0.0.1" ++ listenAddress ++ metricsPath

/-- Go `func systemAlive(listenAddress string, metricsPath string)`: after the
notification or the warning, `res.Body` is read, which dereferences `res`. -/
def systemAlive (env : Env) (listenAddress metricsPath : String) (w : World) : Outcome :=
  let r := env.Get (metricsURL listenAddress metricsPath)
  let w1 :=
    match r.err with
    | none => w.emit .notifyWatchdog
    | some err => w.warn ("liveness check failed: " ++ err)
  match r.res with
  | none => .panicked w1 "runtime error: invalid memory address or nil pointer dereference"
  | some _ => .returned w1

/-! ## Vocabulary of the properties -/

/-- The names of the metric fields of `NukiDevice`, in declared order. -/
def metricKeys : List String :=
  ["Mode", "State", "DoorsensorState", "BatteryChargeState", "NumBatteryCharging",
    "NumBatteryCritical"]

/-- The label names every device series carries. -/
def deviceLabels : List String :=
  ["devicetype", "nukiid", "name", "firmwareversion"]

/-- The label-value tuple of a decoded device object. -/
def deviceTuple (d : NukiJSON) : List String :=
  [FormatInt d.DeviceType, FormatInt d.NukiID, d.Name, d.FirmwareVersion]

/-- The flag-to-integer reading of the specification: 1 for true, 0 for false. -/
def flag (b : Bool) : Int :=
  if b then 1 else 0

/-- The six metric writes the specification lists for a device object, in its
order: mode, state, door-sensor state, battery charge state, charging flag,
critical flag, each under the device's own tuple. -/
def deviceWrites (d : NukiJSON) : List Event :=
  [ .gaugeSet "Mode" (deviceTuple d) d.LastKnownState.Mode,
    .gaugeSet "State" (deviceTuple d) d.LastKnownState.State,
    .gaugeSet "DoorsensorState" (deviceTuple d) d.LastKnownState.DoorsensorState,
    .gaugeSet "BatteryChargeState" (deviceTuple d) d.LastKnownState.BatteryChargeState,
    .gaugeSet "NumBatteryCharging" (deviceTuple d) (flag d.LastKnownState.BatteryCharging),
    .gaugeSet "NumBatteryCritical" (deviceTuple d) (flag d.LastKnownState.BatteryCritical) ]

/-- The six writes of a device whose metrics are all zero. -/
def zeroWrites (t : List String) : List Event :=
  [ .gaugeSet "Mode" t 0, .gaugeSet "State" t 0, .gaugeSet "DoorsensorState" t 0,
    .gaugeSet "BatteryChargeState" t 0, .gaugeSet "NumBatteryCharging" t 0,
    .gaugeSet "NumBatteryCritical" t 0 ]

/-- The members of `lastKnownState` that become metrics. -/
inductive StateField where
  | mode
  | state
  | doorsensorState
  | batteryChargeState
  | batteryCharging
  | batteryCritical
  deriving DecidableEq, Repr

/-- The JSON name of the member (its struct tag in `NukiJSON`). -/
def StateField.tag : StateField → String
  | .mode => "mode"
  | .state => "state"
  | .doorsensorState => "doorsensorState"
  | .batteryChargeState => "batteryChargeState"
  | .batteryCharging => "batteryCharging"
  | .batteryCritical => "batteryCritical"

/-- The metric key (the `NukiDevice` field) the member is published under. -/
def StateField.key : StateField → String
  | .mode => "Mode"
  | .state => "State"
  | .doorsensorState => "DoorsensorState"
  | .batteryChargeState => "BatteryChargeState"
  | .batteryCharging => "NumBatteryCharging"
  | .batteryCritical => "NumBatteryCritical"

/-- The metric value read from a decoded state. -/
def StateField.get : StateField → LastKnownState → Int
  | .mode, s => s.Mode
  | .state, s => s.State
  | .doorsensorState, s => s.DoorsensorState
  | .batteryChargeState, s => s.BatteryChargeState
  | .batteryCharging, s => flag s.BatteryCharging
  | .batteryCritical, s => flag s.BatteryCritical

/-- The member `f` occurs in no `lastKnownState` object among the members `ms`
of a device object; so it is, in particular, when `ms` has no
`lastKnownState` member at all. -/
def Missing (f : StateField) (ms : List (String × JSON)) : Prop :=
  ∀ m ∈ ms, EqualFold "lastKnownState" m.1 = true →
    ∀ sms, m.2 = .obj sms → ∀ sm ∈ sms, EqualFold f.tag sm.1 = false

/-- Did the decoding succeed? -/
def succeeded {α : Type} : Except String α → Bool
  | .ok _ => true
  | .error _ => false

/-- A value fit for an `int` member: `null` or an integer literal in range. -/
def intOK (env : Env) : JSON → Bool
  | .null => true
  | .int n => fitsInt env.intSize n
  | _ => false

/-- A value fit for a `string` member: `null` or a string. -/
def stringOK : JSON → Bool
  | .null => true
  | .str _ => true
  | _ => false

/-- A value fit for a `bool` member: `null`, `true` or `false`. -/
def boolOK : JSON → Bool
  | .null => true
  | .bool _ => true
  | _ => false

/-- A value fit for the `timestamp` member: `null` or an RFC 3339 string. -/
def timeOK (env : Env) : JSON → Bool
  | .null => true
  | .str s => env.isRFC3339 s
  | _ => false

/-- A member that is present in a `lastKnownState` object has a value of the
type of the field its key names; a key naming no field is free. -/
def stateMemberOK (env : Env) (key : String) (val : JSON) : Bool :=
  if EqualFold "mode" key then intOK env val
  else if EqualFold "state" key then intOK env val
  else if EqualFold "doorsensorState" key then intOK env val
  else if EqualFold "batteryChargeState" key then intOK env val
  else if EqualFold "stateName" key then stringOK val
  else if EqualFold "batteryCritical" key then boolOK val
  else if EqualFold "batteryCharging" key then boolOK val
  else if EqualFold "timestamp" key then timeOK env val
  else true

/-- A value fit for the `lastKnownState` member: `null`, or an object all of
whose members that are present are well typed.  No member is required. -/
def stateOK (env : Env) : JSON → Bool
  | .null => true
  | .obj sms => sms.all fun sm => stateMemberOK env sm.1 sm.2
  | _ => false

/-- A member that is present in a device object has a value of the type of
the field its key names; a key naming no field is free. -/
def deviceMemberOK (env : Env) (key : String) (val : JSON) : Bool :=
  if EqualFold "deviceType" key then intOK env val
  else if EqualFold "nukiId" key then intOK env val
  else if EqualFold "name" key then stringOK val
  else if EqualFold "firmwareVersion" key then stringOK val
  else if EqualFold "lastKnownState" key then stateOK env val
  else true

/-- An array element all of whose members that are present are well typed:
`null`, or an object of such members.  No member is required. -/
def deviceOK (env : Env) : JSON → Bool
  | .null => true
  | .obj ms => ms.all fun m => deviceMemberOK env m.1 m.2
  | _ => false

/-- Is the event a write of a device gauge? -/
def Event.isGaugeSet : Event → Bool
  | .gaugeSet _ _ _ => true
  | _ => false

/-- Is the event a write of the freshness gauge? -/
def Event.isLastUpdateSet : Event → Bool
  | .lastUpdateSet _ => true
  | _ => false

/-- Is the event a watchdog notification? -/
def Event.isNotify : Event → Bool
  | .notifyWatchdog => true
  | _ => false

/-- Is the event a warning? -/
def Event.isWarn : Event → Bool
  | .warn _ => true
  | _ => false

/-- The value a series holds: the gauge of tuple `t` in the vector registered
under `key`, `none` when there is no such vector or no such gauge. -/
def World.value (w : World) (key : String) (t : List String) : Option Int :=
  (w.exposed key).bind fun gv => gv.values t

/-- The registry invariant of a running exporter: a metric key present in
`exposed` has the vector named after it with the device labels, and the name
of an absent one is still free in the default registry. -/
def SchemaOK (w : World) : Prop :=
  ∀ key ∈ metricKeys,
    (∀ gv, w.exposed key = some gv → gv.name = "nuki_" ++ key ∧ gv.labelNames = deviceLabels) ∧
    (w.exposed key = none → "nuki_" ++ key ∉ w.registered)

/-- The label-value tuples produced by the devices of the payload of this
cycle (none when there is no response or the body does not decode). -/
def payloadTuples (env : Env) (w : World) : List (List String) :=
  match (env.Do (bridgeURL w)).res with
  | none => []
  | some res =>
    match Unmarshal env res.Body with
    | .error _ => []
    | .ok ds => ds.map deviceTuple

/-- Every series value of `w` is still there in `w1`, and unchanged unless its
tuple is one of `ts`. -/
def Retains (ts : List (List String)) (w w1 : World) : Prop :=
  ∀ key t v, w.value key t = some v →
    (w1.value key t).isSome ∧ (t ∉ ts → w1.value key t = some v)

/-- The run from `w` to `w1` performed exactly the gauge writes `ws` (a list
of `gaugeSet` events), each followed by one write of the freshness gauge with
the next clock reading, and kept the registry invariant. -/
structure Wrote (env : Env) (ws : List Event) (w w1 : World) : Prop where
  schema : SchemaOK w1
  clock : w1.clockReads = w.clockReads + ws.length
  trace : ∃ evs, w1.trace = w.trace ++ evs ∧ evs.filter Event.isGaugeSet = ws ∧
    evs.filter Event.isLastUpdateSet =
      (List.range ws.length).map fun i => Event.lastUpdateSet (env.now (w.clockReads + i))
  touchedNone : ws = [] → ∀ t, w1.lastUpdate t = w.lastUpdate t
  touchedSome : ws ≠ [] →
    w1.lastUpdate ["global"] = some (float64OfInt (env.now (w1.clockReads - 1)))
  touchedOther : ∀ t, t ≠ ["global"] → w1.lastUpdate t = w.lastUpdate t
  series : ∀ key lv v, Event.gaugeSet key lv v ∈ ws → (w1.value key lv).isSome
  keeps : ∀ key t, (w.value key t).isSome → (w1.value key t).isSome

/-- Every gauge of the freshness vector of `w` is still there in `w1`, and
unchanged unless it is the one of `scope="global"`. -/
def KeepsFreshness (w w1 : World) : Prop :=
  ∀ t x, w.lastUpdate t = some x →
    (w1.lastUpdate t).isSome ∧ (t ≠ ["global"] → w1.lastUpdate t = some x)

/-! ## Concrete payloads and environments -/

/-- The payload of end-to-end scenario 1, as a syntax tree. -/
def scenarioOne : JSON :=
  .arr [.obj [("deviceType", .int 0), ("nukiId", .int 1), ("name", .str "Frontdoor"),
    ("firmwareVersion", .str "1.0"),
    ("lastKnownState", .obj [("mode", .int 2), ("state", .int 3), ("doorsensorState", .int 1),
      ("batteryChargeState", .int 80), ("batteryCritical", .bool false),
      ("batteryCharging", .bool true)])]]

/-- The text of the scenario 1 payload. -/
def scenarioOneText : String :=
  "[\x7b\"deviceType\":0,\"nukiId\":1,\"name\":\"Frontdoor\",\"firmwareVersion\":\"1.0\",\"lastKnownState\":\x7b\"mode\":2,\"state\":3,\"doorsensorState\":1,\"batteryChargeState\":80,\"batteryCritical\":false,\"batteryCharging\":true\x7d\x7d]"

/-- A device object without `lastKnownState` (end-to-end scenario 3). -/
def scenarioThree : JSON :=
  .arr [.obj [("deviceType", .int 0), ("nukiId", .int 1), ("name", .str "Frontdoor"),
    ("firmwareVersion", .str "1.0")]]

/-- The text of the scenario 3 payload. -/
def scenarioThreeText : String :=
  "[\x7b\"deviceType\":0,\"nukiId\":1,\"name\":\"Frontdoor\",\"firmwareVersion\":\"1.0\"\x7d]"

/-- An environment in which the bridge answers with the given status and body,
the body having the given syntax tree; the clock starts at 1700000000 and
advances a second per read, and the local metrics endpoint is not reachable. -/
def bridgeEnv (status : Int) (body : String) (tree : Option JSON) : Env :=
  { intSize := 64
    parseJSON := fun s => if s = body then tree else none
    isRFC3339 := fun _ => false
    NewRequest := fun _ => none
    Do := fun _ => .ok ⟨status, body, none⟩
    Get := fun _ => .failed "dial tcp 127.0.0.1:9314: connect: connection refused"
    now := fun k => 1700000000 + k }

/-- An environment in which the bridge cannot be reached: the client returns
an error and no response.  The local metrics endpoint answers. -/
def unreachableEnv : Env :=
  { intSize := 64
    parseJSON := fun _ => none
    isRFC3339 := fun _ => false
    NewRequest := fun _ => none
    Do := fun _ => .failed "dial tcp: connect: no route to host"
    Get := fun _ => .ok ⟨200, "", none⟩
    now := fun k => 1700000000 + k }

/-- The state of a fresh process polling the bridge `bridge`. -/
def freshWorld : World :=
  World.initial "bridge" "secret"

/-- The bridge answers 200 with the scenario 1 payload. -/
def scenarioOneEnv : Env :=
  bridgeEnv 200 scenarioOneText (some scenarioOne)

/-- The device the scenario 1 payload decodes to. -/
def scenarioOneDevice : NukiJSON :=
  { DeviceType := 0, NukiID := 1, Name := "Frontdoor", FirmwareVersion := "1.0",
    LastKnownState :=
      { Mode := 2, State := 3, DoorsensorState := 1, BatteryChargeState := 80, StateName := "",
        BatteryCritical := false, BatteryCharging := true, Timestamp := none } }

/-- The label-value tuple of the scenario device. -/
def frontdoor : List String :=
  ["0", "1", "Frontdoor", "1.0"]

/-- The state of the process after one cycle on the scenario 1 payload. -/
def publishedWorld : World :=
  (getMetrics scenarioOneEnv freshWorld).world

/-- The bridge answers 200 with the scenario 3 payload. -/
def scenarioThreeEnv : Env :=
  bridgeEnv 200 scenarioThreeText (some scenarioThree)

/-- The device the scenario 3 payload decodes to. -/
def scenarioThreeDevice : NukiJSON :=
  { DeviceType := 0, NukiID := 1, Name := "Frontdoor", FirmwareVersion := "1.0",
    LastKnownState := LastKnownState.zero }

/-- A payload of two devices: the state of the first has only `mode` and
`state`, the second has no `lastKnownState`. -/
def scenarioPartial : JSON :=
  .arr [
    .obj [("deviceType", .int 0), ("nukiId", .int 1), ("name", .str "Frontdoor"),
      ("firmwareVersion", .str "1.0"),
      ("lastKnownState", .obj [("mode", .int 4), ("state", .int 1)])],
    .obj [("deviceType", .int 0), ("nukiId", .int 2), ("name", .str "Backdoor"),
      ("firmwareVersion", .str "1.0")]]

/-- The text of the two-device payload. -/
def scenarioPartialText : String :=
  "[\x7b\"deviceType\":0,\"nukiId\":1,\"name\":\"Frontdoor\",\"firmwareVersion\":\"1.0\",\"lastKnownState\":\x7b\"mode\":4,\"state\":1\x7d\x7d,\x7b\"deviceType\":0,\"nukiId\":2,\"name\":\"Backdoor\",\"firmwareVersion\":\"1.0\"\x7d]"

/-- The bridge answers 200 with the two-device payload. -/
def scenarioPartialEnv : Env :=
  bridgeEnv 200 scenarioPartialText (some scenarioPartial)

/-- The bridge answers 200 with the empty array. -/
def emptyEnv : Env :=
  bridgeEnv 200 "[]" (some (.arr []))

/-- The bridge answers 503. -/
def unavailableEnv : Env :=
  bridgeEnv 503 "Service Unavailable" none

/-- A state in which `Mode` was registered with four label names other than
the device labels and holds one gauge. -/
def conflictWorld : World :=
  { freshWorld with
    exposed := fun k =>
      if k = "Mode" then
        some { name := "nuki_Mode", labelNames := ["a", "b", "c", "d"],
               values := fun t => if t = ["1", "2", "3", "4"] then some 7 else none }
      else none
    registered := ["nuki_lastUpdate", "nuki_Mode"] }

set_option maxRecDepth 100000

/-! ## Basic facts -/

@[simp]
theorem andThen_returned (w : World) (f : World → Outcome) :
    (Outcome.returned w).andThen f = f w := rfl

@[simp]
theorem andThen_panicked (w : World) (msg : String) (f : World → Outcome) :
    (Outcome.panicked w msg).andThen f = .panicked w msg := rfl

theorem labelStep_assignDevice (nd : NukiDevice) (d : NukiJSON) :
    labelStep (assignDevice nd d) = (deviceLabels, deviceTuple d) := rfl

/-! ## Series are retained -/

@[simp]
theorem value_warn (w : World) (msg : String) (k : String) (t : List String) :
    (w.warn msg).value k t = w.value k t := rfl

theorem Retains.refl (ts : List (List String)) (w : World) : Retains ts w w := by
  intro key t v h
  simp [h]

theorem Retains.trans {ts : List (List String)} {w w1 w2 : World}
    (h1 : Retains ts w w1) (h2 : Retains ts w1 w2) : Retains ts w w2 := by
  intro key t v h
  obtain ⟨hs, hk⟩ := h1 key t v h
  obtain ⟨v1, hv1⟩ := Option.isSome_iff_exists.mp hs
  refine ⟨(h2 key t v1 hv1).1, fun ht => ?_⟩
  exact (h2 key t v (hk ht)).2 ht

theorem Retains.mono {ts ts1 : List (List String)} {w w1 : World}
    (h : Retains ts w w1) (hsub : ∀ t ∈ ts, t ∈ ts1) : Retains ts1 w w1 := by
  intro key t v hv
  exact ⟨(h key t v hv).1, fun ht => (h key t v hv).2 fun hm => ht (hsub t hm)⟩

theorem Retains.andThen {ts : List (List String)} {w : World} {o : Outcome}
    {f : World → Outcome} (h1 : Retains ts w o.world)
    (h2 : ∀ w1, Retains ts w1 (f w1).world) : Retains ts w (o.andThen f).world := by
  cases o with
  | returned w1 => exact h1.trans (h2 w1)
  | panicked w1 msg => exact h1

theorem setAndTouch_retains (env : Env) (key : String) (value : Int) (lv : List String)
    (gv : GaugeVec) (w : World) (hgv : w.exposed key = some gv) :
    Retains [lv] w (setAndTouch env key value lv gv w).world := by
  unfold setAndTouch
  split
  · exact Retains.refl _ _
  · intro k t v hv
    simp only [Outcome.world, World.emit, World.value] at hv ⊢
    by_cases hk : k = key
    · subst hk
      rw [hgv] at hv
      simp only [Option.some_bind] at hv
      by_cases ht : t = lv
      · simp [ht]
      · simp [ht, hv]
    · simp [hk, hv]

theorem setPrometheusMetric_retains (env : Env) (key : String) (value : Int)
    (labels lv : List String) (w : World) :
    Retains [lv] w (setPrometheusMetric env key value labels lv w).world := by
  unfold setPrometheusMetric
  cases hE : w.exposed key with
  | some gv => exact setAndTouch_retains env key value lv gv w hE
  | none =>
    simp only
    have h0 : ∀ (w0 : World), w0.exposed = (fun k => if k = key then
        some { name := "nuki_" ++ key, labelNames := labels, values := fun _ => none }
        else w.exposed k) → Retains [lv] w w0 := by
      intro w0 h0 k t v hv
      have : w0.value k t = w.value k t := by
        simp only [World.value, h0]
        by_cases hk : k = key
        · subst hk; simp [hE]
        · simp [hk]
      rw [this, hv]; simp
    unfold MustRegister
    split
    · simp only [andThen_returned]
      refine (h0 _ rfl).trans (setAndTouch_retains env key value lv _ _ ?_)
      simp [World.emit]
    · simp only [andThen_panicked, Outcome.world]
      exact h0 _ rfl

theorem metricLoop_retains (env : Env) (labels lv : List String)
    (fs : List (String × FieldValue)) (w : World) :
    Retains [lv] w (metricLoop env labels lv fs w).world := by
  induction fs generalizing w with
  | nil => exact Retains.refl _ _
  | cons f rest ih =>
    obtain ⟨key, value⟩ := f
    unfold metricLoop
    split
    · cases value with
      | string s => exact Retains.refl _ _
      | int v =>
        exact Retains.andThen (setPrometheusMetric_retains env key v labels lv w) ih
    · exact ih w

theorem deviceLoop_retains (env : Env) (ds : List NukiJSON) (nd : NukiDevice) (w : World) :
    Retains (ds.map deviceTuple) w (deviceLoop env ds nd w).world := by
  induction ds generalizing nd w with
  | nil => exact Retains.refl _ _
  | cons d rest ih =>
    unfold deviceLoop
    simp only [labelStep_assignDevice, List.map_cons]
    refine Retains.andThen ?_ fun w1 => ?_
    · exact (metricLoop_retains env _ _ _ w).mono (by simp)
    · exact (ih _ w1).mono (by simp +contextual)

theorem retains_warn (ts : List (List String)) (w : World) (msg : String) :
    Retains ts w (Outcome.returned (w.warn msg)).world := by
  intro k t v hv
  simp [Outcome.world, hv]

theorem getMetrics_retains (env : Env) (w : World) :
    Retains (payloadTuples env w) w (getMetrics env w).world := by
  unfold getMetrics payloadTuples
  simp only
  cases env.NewRequest (bridgeURL w) with
  | some err => exact retains_warn _ _ _
  | none =>
    cases (env.Do (bridgeURL w)).res with
    | none => exact Retains.refl _ _
    | some res =>
      simp only
      by_cases hst : res.StatusCode = 200
      · simp only [hst, ne_eq, not_true_eq_false, if_false]
        cases res.BodyErr with
        | some err => exact retains_warn _ _ _
        | none =>
          cases Unmarshal env res.Body with
          | error e => exact retains_warn _ _ _
          | ok ds => exact deviceLoop_retains env ds _ w
      · simp only [hst, ne_eq, not_false_eq_true, if_true]
        exact retains_warn _ _ _

/-! ## The freshness gauge is retained -/

theorem keepsFreshness_refl (w : World) : KeepsFreshness w w := by
  intro t x h
  simp [h]

theorem keepsFreshness_trans {w w1 w2 : World}
    (h1 : KeepsFreshness w w1) (h2 : KeepsFreshness w1 w2) : KeepsFreshness w w2 := by
  intro t x h
  obtain ⟨hs, hk⟩ := h1 t x h
  obtain ⟨x1, hx1⟩ := Option.isSome_iff_exists.mp hs
  exact ⟨(h2 t x1 hx1).1, fun ht => (h2 t x (hk ht)).2 ht⟩

theorem keepsFreshness_andThen {w : World} {o : Outcome} {f : World → Outcome}
    (h1 : KeepsFreshness w o.world) (h2 : ∀ w1, KeepsFreshness w1 (f w1).world) :
    KeepsFreshness w (o.andThen f).world := by
  cases o with
  | returned w1 => exact keepsFreshness_trans h1 (h2 w1)
  | panicked w1 msg => exact h1

theorem setAndTouch_keepsFreshness (env : Env) (key : String) (value : Int)
    (lv : List String) (gv : GaugeVec) (w : World) :
    KeepsFreshness w (setAndTouch env key value lv gv w).world := by
  unfold setAndTouch
  split
  · exact keepsFreshness_refl _
  · intro t x hx
    simp only [Outcome.world, World.emit]
    by_cases ht : t = ["global"]
    · simp [ht]
    · simp [ht, hx]

theorem setPrometheusMetric_keepsFreshness (env : Env) (key : String) (value : Int)
    (labels lv : List String) (w : World) :
    KeepsFreshness w (setPrometheusMetric env key value labels lv w).world := by
  unfold setPrometheusMetric
  cases w.exposed key with
  | some gv => exact setAndTouch_keepsFreshness env key value lv gv w
  | none =>
    simp only
    unfold MustRegister
    split
    · simp only [andThen_returned]
      refine keepsFreshness_trans ?_ (setAndTouch_keepsFreshness env key value lv _ _)
      exact fun t x hx => by simp [World.emit, hx]
    · simp only [andThen_panicked, Outcome.world]
      exact fun t x hx => by simp [hx]

theorem metricLoop_keepsFreshness (env : Env) (labels lv : List String)
    (fs : List (String × FieldValue)) (w : World) :
    KeepsFreshness w (metricLoop env labels lv fs w).world := by
  induction fs generalizing w with
  | nil => exact keepsFreshness_refl _
  | cons f rest ih =>
    obtain ⟨key, value⟩ := f
    unfold metricLoop
    split
    · cases value with
      | string s => exact keepsFreshness_refl _
      | int v =>
        exact keepsFreshness_andThen (setPrometheusMetric_keepsFreshness env key v labels lv w) ih
    · exact ih w

theorem deviceLoop_keepsFreshness (env : Env) (ds : List NukiJSON) (nd : NukiDevice)
    (w : World) : KeepsFreshness w (deviceLoop env ds nd w).world := by
  induction ds generalizing nd w with
  | nil => exact keepsFreshness_refl _
  | cons d rest ih =>
    unfold deviceLoop
    simp only [labelStep_assignDevice]
    exact keepsFreshness_andThen (metricLoop_keepsFreshness env _ _ _ w) fun w1 => ih _ w1

theorem getMetrics_keepsFreshness (env : Env) (w : World) :
    KeepsFreshness w (getMetrics env w).world := by
  unfold getMetrics
  simp only
  cases env.NewRequest (bridgeURL w) with
  | some err => exact keepsFreshness_refl _
  | none =>
    cases (env.Do (bridgeURL w)).res with
    | none => exact keepsFreshness_refl _
    | some res =>
      simp only
      by_cases hst : res.StatusCode = 200
      · simp only [hst, ne_eq, not_true_eq_false, if_false]
        cases res.BodyErr with
        | some err => exact keepsFreshness_refl _
        | none =>
          cases Unmarshal env res.Body with
          | error e => exact keepsFreshness_refl _
          | ok ds => exact deviceLoop_keepsFreshness env ds _ w
      · simp only [hst, ne_eq, not_false_eq_true, if_true]
        exact keepsFreshness_refl _

/-! ## A cycle on a sound registry -/

theorem nuki_append_inj {a b : String} (h : "nuki_" ++ a = "nuki_" ++ b) : a = b := by
  have h1 := congrArg String.data h
  simp only [String.data_append] at h1
  exact String.ext (List.append_cancel_left h1)

theorem metricKeys_valid : ∀ key ∈ metricKeys, validMetricName ("nuki_" ++ key) = true := by
  decide

theorem deviceLabels_valid :
    (deviceLabels.all validLabelName && decide deviceLabels.Nodup) = true := by
  decide

theorem Wrote.nil (env : Env) (w : World) (h : SchemaOK w) : Wrote env [] w w where
  schema := h
  clock := rfl
  trace := ⟨[], by simp, rfl, rfl⟩
  touchedNone := fun _ _ => rfl
  touchedSome := fun h => absurd rfl h
  touchedOther := fun _ _ => rfl
  series := fun _ _ _ h => by simp at h
  keeps := fun _ _ h => h

theorem Wrote.append {env : Env} {ws1 ws2 : List Event} {w w1 w2 : World}
    (h1 : Wrote env ws1 w w1) (h2 : Wrote env ws2 w1 w2) : Wrote env (ws1 ++ ws2) w w2 where
  schema := h2.schema
  clock := by rw [h2.clock, h1.clock, List.length_append, Nat.add_assoc]
  trace := by
    obtain ⟨e1, ht1, hg1, hl1⟩ := h1.trace
    obtain ⟨e2, ht2, hg2, hl2⟩ := h2.trace
    refine ⟨e1 ++ e2, by rw [ht2, ht1, List.append_assoc], by rw [List.filter_append, hg1, hg2], ?_⟩
    rw [List.filter_append, hl1, hl2, h1.clock, List.length_append, List.range_add,
      List.map_append, List.map_map]
    congr 1
    apply List.map_congr_left
    intro i _
    simp [Nat.add_assoc]
  touchedNone := by
    intro h t
    obtain ⟨e1, e2⟩ := List.append_eq_nil.mp h
    rw [h2.touchedNone e2, h1.touchedNone e1]
  touchedSome := by
    intro h
    by_cases e2 : ws2 = []
    · have e1 : ws1 ≠ [] := fun e1 => h (by rw [e1, e2]; rfl)
      rw [h2.touchedNone e2, h1.touchedSome e1, h2.clock, e2]
      rfl
    · exact h2.touchedSome e2
  touchedOther := fun t ht => by rw [h2.touchedOther t ht, h1.touchedOther t ht]
  series := by
    intro key lv v hm
    rcases List.mem_append.mp hm with hm | hm
    · exact h2.keeps key lv (h1.series key lv v hm)
    · exact h2.series key lv v hm
  keeps := fun key t h => h2.keeps key t (h1.keeps key t h)

theorem Wrote.ofSilent {env : Env} {ws : List Event} {w w0 w1 : World}
    (h : Wrote env ws w0 w1) (pre : List Event) (htrace : w0.trace = w.trace ++ pre)
    (hg : pre.filter Event.isGaugeSet = []) (hl : pre.filter Event.isLastUpdateSet = [])
    (hclock : w0.clockReads = w.clockReads) (hlast : w0.lastUpdate = w.lastUpdate)
    (hval : ∀ key t, w0.value key t = w.value key t) : Wrote env ws w w1 where
  schema := h.schema
  clock := by rw [h.clock, hclock]
  trace := by
    obtain ⟨evs, ht, hg1, hl1⟩ := h.trace
    refine ⟨pre ++ evs, by rw [ht, htrace, List.append_assoc], ?_, ?_⟩
    · rw [List.filter_append, hg, hg1]; rfl
    · rw [List.filter_append, hl, hl1, hclock]; rfl
  touchedNone := fun e t => by rw [h.touchedNone e, hlast]
  touchedSome := h.touchedSome
  touchedOther := fun t ht => by rw [h.touchedOther t ht, hlast]
  series := h.series
  keeps := fun key t hv => h.keeps key t (by rw [hval]; exact hv)

theorem setAndTouch_wrote (env : Env) (key : String) (value : Int) (lv : List String)
    (gv : GaugeVec) (w : World) (hs : SchemaOK w) (hk : key ∈ metricKeys)
    (hgv : w.exposed key = some gv) (hlen : lv.length = 4) :
    ∃ w1, setAndTouch env key value lv gv w = .returned w1 ∧
      Wrote env [.gaugeSet key lv value] w w1 := by
  obtain ⟨hname, hlab⟩ := (hs key hk).1 gv hgv
  have hl : lv.length = gv.labelNames.length := by rw [hlab, hlen]; rfl
  unfold setAndTouch
  simp only [hl, ne_eq, not_true_eq_false, if_false]
  refine ⟨_, rfl, ?_⟩
  constructor
  · intro k hkm
    simp only [World.emit]
    by_cases hkk : k = key
    · subst hkk
      simp only [if_true, Option.some.injEq, reduceCtorEq, false_implies, and_true]
      rintro gv1 rfl
      exact ⟨hname, hlab⟩
    · simp only [hkk, if_false]
      exact hs k hkm
  · rfl
  · refine ⟨[.gaugeSet key lv value, .lastUpdateSet (env.now w.clockReads)], ?_, rfl, rfl⟩
    simp [World.emit]
  · intro h; simp at h
  · intro _; simp [World.emit]
  · intro t ht; simp [World.emit, ht]
  · intro k t v hm
    simp only [List.mem_singleton, Event.gaugeSet.injEq] at hm
    obtain ⟨rfl, rfl, rfl⟩ := hm
    simp [World.value, World.emit]
  · intro k t hv
    simp only [World.value, World.emit] at hv ⊢
    by_cases hkk : k = key
    · subst hkk
      rw [hgv] at hv
      simp only [Option.some_bind] at hv
      by_cases ht : t = lv
      · simp [ht]
      · simp [ht, hv]
    · simpa [hkk] using hv

theorem setPrometheusMetric_wrote (env : Env) (key : String) (value : Int) (lv : List String)
    (w : World) (hs : SchemaOK w) (hk : key ∈ metricKeys) (hlen : lv.length = 4) :
    ∃ w1, setPrometheusMetric env key value deviceLabels lv w = .returned w1 ∧
      Wrote env [.gaugeSet key lv value] w w1 := by
  unfold setPrometheusMetric
  cases hE : w.exposed key with
  | some gv => exact setAndTouch_wrote env key value lv gv w hs hk hE hlen
  | none =>
    have hfree : "nuki_" ++ key ∉ w.registered := (hs key hk).2 hE
    have hv := metricKeys_valid key hk
    have hlv := deviceLabels_valid
    simp only [Bool.and_eq_true] at hlv
    simp only [MustRegister, hv, hlv.1, hlv.2, hfree, decide_False, Bool.not_false,
      Bool.and_self, if_true, andThen_returned]
    have hs0 : SchemaOK ({ w with
        exposed := fun k => if k = key then
          some { name := "nuki_" ++ key, labelNames := deviceLabels, values := fun _ => none }
          else w.exposed k,
        registered := w.registered ++ ["nuki_" ++ key] }.emit
          (.register ("nuki_" ++ key) deviceLabels)) := by
      intro k hkm
      simp only [World.emit]
      by_cases hkk : k = key
      · subst hkk
        simp only [if_true, Option.some.injEq, reduceCtorEq, false_implies, and_true]
        rintro gv1 rfl
        exact ⟨rfl, rfl⟩
      · simp only [hkk, if_false, List.mem_append, List.mem_singleton, not_or]
        refine ⟨(hs k hkm).1, fun hn => ⟨(hs k hkm).2 hn, fun he => hkk (nuki_append_inj he)⟩⟩
    obtain ⟨w1, hr, hw⟩ := setAndTouch_wrote env key value lv
      { name := "nuki_" ++ key, labelNames := deviceLabels, values := fun _ => none } _ hs0 hk
      (by simp [World.emit]) hlen
    refine ⟨w1, hr, hw.ofSilent [.register ("nuki_" ++ key) deviceLabels]
      rfl rfl rfl rfl rfl ?_⟩
    intro k t
    simp only [World.value, World.emit]
    by_cases hkk : k = key
    · subst hkk; simp [hE]
    · simp [hkk]

theorem assignDevice_eq (nd : NukiDevice) (d : NukiJSON) :
    assignDevice nd d =
      { LabelDeviceType := d.DeviceType, LabelNukiID := d.NukiID, LabelName := d.Name,
        LabelFirmwareVersion := d.FirmwareVersion, Mode := d.LastKnownState.Mode,
        State := d.LastKnownState.State, DoorsensorState := d.LastKnownState.DoorsensorState,
        BatteryChargeState := d.LastKnownState.BatteryChargeState,
        NumBatteryCharging := flag d.LastKnownState.BatteryCharging,
        NumBatteryCritical := flag d.LastKnownState.BatteryCritical } := by
  cases h1 : d.LastKnownState.BatteryCharging <;> cases h2 : d.LastKnownState.BatteryCritical <;>
    simp [assignDevice, h1, h2, flag]

theorem metricLoop_device (env : Env) (lv : List String) (nd : NukiDevice) (w : World) :
    metricLoop env deviceLabels lv nd.reflect w =
      (setPrometheusMetric env "Mode" nd.Mode deviceLabels lv w).andThen fun w1 =>
      (setPrometheusMetric env "State" nd.State deviceLabels lv w1).andThen fun w2 =>
      (setPrometheusMetric env "DoorsensorState" nd.DoorsensorState deviceLabels lv w2).andThen
        fun w3 =>
      (setPrometheusMetric env "BatteryChargeState" nd.BatteryChargeState deviceLabels lv
        w3).andThen fun w4 =>
      (setPrometheusMetric env "NumBatteryCharging" nd.NumBatteryCharging deviceLabels lv
        w4).andThen fun w5 =>
      (setPrometheusMetric env "NumBatteryCritical" nd.NumBatteryCritical deviceLabels lv
        w5).andThen fun w6 => .returned w6 := rfl

theorem metricLoop_wrote (env : Env) (d : NukiJSON) (nd : NukiDevice) (w : World)
    (hs : SchemaOK w) :
    ∃ w1, metricLoop env deviceLabels (deviceTuple d) (assignDevice nd d).reflect w =
        .returned w1 ∧ Wrote env (deviceWrites d) w w1 := by
  rw [assignDevice_eq, metricLoop_device]
  obtain ⟨w1, h1, W1⟩ := setPrometheusMetric_wrote env "Mode" d.LastKnownState.Mode
    (deviceTuple d) w hs (by decide) rfl
  obtain ⟨w2, h2, W2⟩ := setPrometheusMetric_wrote env "State" d.LastKnownState.State
    (deviceTuple d) w1 W1.schema (by decide) rfl
  obtain ⟨w3, h3, W3⟩ := setPrometheusMetric_wrote env "DoorsensorState"
    d.LastKnownState.DoorsensorState (deviceTuple d) w2 W2.schema (by decide) rfl
  obtain ⟨w4, h4, W4⟩ := setPrometheusMetric_wrote env "BatteryChargeState"
    d.LastKnownState.BatteryChargeState (deviceTuple d) w3 W3.schema (by decide) rfl
  obtain ⟨w5, h5, W5⟩ := setPrometheusMetric_wrote env "NumBatteryCharging"
    (flag d.LastKnownState.BatteryCharging) (deviceTuple d) w4 W4.schema (by decide) rfl
  obtain ⟨w6, h6, W6⟩ := setPrometheusMetric_wrote env "NumBatteryCritical"
    (flag d.LastKnownState.BatteryCritical) (deviceTuple d) w5 W5.schema (by decide) rfl
  refine ⟨w6, ?_, ?_⟩
  · simp only [h1, h2, h3, h4, h5, h6, andThen_returned]
  · exact W1.append (W2.append (W3.append (W4.append (W5.append W6))))

theorem deviceLoop_wrote (env : Env) (ds : List NukiJSON) (nd : NukiDevice) (w : World)
    (hs : SchemaOK w) :
    ∃ w1, deviceLoop env ds nd w = .returned w1 ∧ Wrote env (ds.flatMap deviceWrites) w w1 := by
  induction ds generalizing nd w with
  | nil => exact ⟨w, rfl, Wrote.nil env w hs⟩
  | cons d rest ih =>
    obtain ⟨w1, h1, W1⟩ := metricLoop_wrote env d nd w hs
    obtain ⟨w2, h2, W2⟩ := ih (assignDevice nd d) w1 W1.schema
    refine ⟨w2, ?_, ?_⟩
    · unfold deviceLoop
      simp only [labelStep_assignDevice, h1, andThen_returned, h2]
    · rw [List.flatMap_cons]
      exact W1.append W2

theorem getMetrics_wrote (env : Env) (w : World) (res : Response) (ds : List NukiJSON)
    (hs : SchemaOK w)
    (hreq : env.NewRequest (bridgeURL w) = none)
    (hres : (env.Do (bridgeURL w)).res = some res)
    (hst : res.StatusCode = 200) (hbody : res.BodyErr = none)
    (hdec : Unmarshal env res.Body = .ok ds) :
    ∃ w1, getMetrics env w = .returned w1 ∧ Wrote env (ds.flatMap deviceWrites) w w1 := by
  obtain ⟨w1, h1, W1⟩ := deviceLoop_wrote env ds NukiDevice.zero w hs
  refine ⟨w1, ?_, W1⟩
  simp only [getMetrics, hreq, hres, hst, hbody, hdec, ne_eq, not_true_eq_false, if_false, h1]

theorem schemaOK_initial (bridgeHost token : String) : SchemaOK (World.initial bridgeHost token) := by
  have h : ∀ key ∈ metricKeys, "nuki_" ++ key ∉ ["nuki_lastUpdate"] := by decide
  intro key hk
  exact ⟨fun gv hg => by simp [World.initial] at hg, fun _ => h key hk⟩

theorem length_flatMap_deviceWrites (ds : List NukiJSON) :
    (ds.flatMap deviceWrites).length = 6 * ds.length := by
  induction ds with
  | nil => rfl
  | cons d rest ih =>
    rw [List.flatMap_cons, List.length_append, ih, List.length_cons]
    simp [deviceWrites]
    omega

/-! ## Decoding: missing members -/

theorem succeeded_map {α β : Type} (x : Except String α) (f : α → β) :
    succeeded (x.map f) = succeeded x := by
  cases x <;> rfl

theorem decodeInt_succeeded (env : Env) (old : Int) (j : JSON) :
    succeeded (decodeInt env old j) = intOK env j := by
  cases j <;> simp only [decodeInt, intOK] <;> first | rfl | (split <;> simp_all [succeeded])

theorem decodeString_succeeded (old : String) (j : JSON) :
    succeeded (decodeString old j) = stringOK j := by
  cases j <;> rfl

theorem decodeBool_succeeded (old : Bool) (j : JSON) :
    succeeded (decodeBool old j) = boolOK j := by
  cases j <;> rfl

theorem decodeTime_succeeded (env : Env) (old : Option String) (j : JSON) :
    succeeded (decodeTime env old j) = timeOK env j := by
  cases j <;> simp only [decodeTime, timeOK] <;> first | rfl | (split <;> simp_all [succeeded])

theorem decodeStateMember_succeeded (env : Env) (v : LastKnownState) (key : String)
    (val : JSON) :
    succeeded (decodeStateMember env v key val) = stateMemberOK env key val := by
  unfold decodeStateMember stateMemberOK
  split_ifs <;> (try simp only [succeeded_map]) <;>
    first
    | rfl
    | exact decodeInt_succeeded env _ val
    | exact decodeString_succeeded _ val
    | exact decodeBool_succeeded _ val
    | exact decodeTime_succeeded env _ val

theorem decodeStateMembers_succeeded (env : Env) (sms : List (String × JSON))
    (v : LastKnownState) :
    succeeded (decodeStateMembers env sms v) =
      sms.all fun sm => stateMemberOK env sm.1 sm.2 := by
  induction sms generalizing v with
  | nil => rfl
  | cons m rest ih =>
    obtain ⟨key, val⟩ := m
    have h := decodeStateMember_succeeded env v key val
    unfold decodeStateMembers
    cases hm : decodeStateMember env v key val with
    | error e =>
      rw [hm] at h
      simp only [List.all_cons, ← h]
      rfl
    | ok v1 =>
      rw [hm] at h
      simp only [List.all_cons, ← h, ih v1]
      rfl

theorem decodeState_succeeded (env : Env) (old : LastKnownState) (j : JSON) :
    succeeded (decodeState env old j) = stateOK env j := by
  cases j <;> first | rfl | exact decodeStateMembers_succeeded env _ old

theorem decodeDeviceMember_succeeded (env : Env) (v : NukiJSON) (key : String) (val : JSON) :
    succeeded (decodeDeviceMember env v key val) = deviceMemberOK env key val := by
  unfold decodeDeviceMember deviceMemberOK
  split_ifs <;> (try simp only [succeeded_map]) <;>
    first
    | rfl
    | exact decodeInt_succeeded env _ val
    | exact decodeString_succeeded _ val
    | exact decodeState_succeeded env _ val

theorem decodeDeviceMembers_succeeded (env : Env) (ms : List (String × JSON)) (v : NukiJSON) :
    succeeded (decodeDeviceMembers env ms v) =
      ms.all fun m => deviceMemberOK env m.1 m.2 := by
  induction ms generalizing v with
  | nil => rfl
  | cons m rest ih =>
    obtain ⟨key, val⟩ := m
    have h := decodeDeviceMember_succeeded env v key val
    unfold decodeDeviceMembers
    cases hm : decodeDeviceMember env v key val with
    | error e =>
      rw [hm] at h
      simp only [List.all_cons, ← h]
      rfl
    | ok v1 =>
      rw [hm] at h
      simp only [List.all_cons, ← h, ih v1]
      rfl

theorem decodeDevice_succeeded (env : Env) (item : JSON) :
    succeeded (decodeDevice env item) = deviceOK env item := by
  cases item <;> first | rfl | exact decodeDeviceMembers_succeeded env _ NukiJSON.zero

theorem decodeDevices_of_ok (env : Env) (items : List JSON)
    (hok : ∀ item ∈ items, deviceOK env item = true) :
    ∃ ds, decodeDevices env items = .ok ds := by
  induction items with
  | nil => exact ⟨[], rfl⟩
  | cons x rest ih =>
    obtain ⟨ds, hds⟩ := ih fun item hm => hok item (List.mem_cons_of_mem _ hm)
    have hx := decodeDevice_succeeded env x
    rw [hok x (List.mem_cons_self _ _)] at hx
    unfold decodeDevices
    cases hd : decodeDevice env x with
    | error e => rw [hd] at hx; cases hx
    | ok d => exact ⟨d :: ds, by simp only [hds]⟩

theorem map_eq_ok {α β : Type} {x : Except String α} {f : α → β} {b : β}
    (h : x.map f = .ok b) : ∃ a, x = .ok a ∧ f a = b := by
  cases x with
  | error e => cases h
  | ok a => exact ⟨a, rfl, by injection h⟩

theorem decodeStateMember_get (env : Env) (f : StateField) (v v1 : LastKnownState)
    (key : String) (val : JSON) (hf : EqualFold f.tag key = false)
    (h : decodeStateMember env v key val = .ok v1) : f.get v1 = f.get v := by
  unfold decodeStateMember at h
  split_ifs at h <;>
    first
    | (obtain ⟨a, -, rfl⟩ := map_eq_ok h
       cases f <;> first | rfl | simp_all [StateField.tag])
    | (injection h with h; subst h; rfl)

theorem decodeStateMembers_get (env : Env) (f : StateField) (sms : List (String × JSON))
    (v v1 : LastKnownState) (hf : ∀ sm ∈ sms, EqualFold f.tag sm.1 = false)
    (h : decodeStateMembers env sms v = .ok v1) : f.get v1 = f.get v := by
  induction sms generalizing v with
  | nil => injection h with h; rw [h]
  | cons m rest ih =>
    obtain ⟨key, val⟩ := m
    unfold decodeStateMembers at h
    cases hm : decodeStateMember env v key val with
    | error e => rw [hm] at h; cases h
    | ok v2 =>
      rw [hm] at h
      rw [ih v2 (fun sm hsm => hf sm (List.mem_cons_of_mem _ hsm)) h]
      exact decodeStateMember_get env f v v2 key val (hf _ (List.mem_cons_self _ _)) hm

theorem decodeDeviceMember_get (env : Env) (f : StateField) (v v1 : NukiJSON)
    (key : String) (val : JSON)
    (hf : EqualFold "lastKnownState" key = true →
      ∀ sms, val = .obj sms → ∀ sm ∈ sms, EqualFold f.tag sm.1 = false)
    (h : decodeDeviceMember env v key val = .ok v1) :
    f.get v1.LastKnownState = f.get v.LastKnownState := by
  unfold decodeDeviceMember at h
  split_ifs at h with h1 h2 h3 h4 h5
  · obtain ⟨a, -, rfl⟩ := map_eq_ok h; rfl
  · obtain ⟨a, -, rfl⟩ := map_eq_ok h; rfl
  · obtain ⟨a, -, rfl⟩ := map_eq_ok h; rfl
  · obtain ⟨a, -, rfl⟩ := map_eq_ok h; rfl
  · obtain ⟨st, hst, rfl⟩ := map_eq_ok h
    cases val with
    | null => injection hst with hst; rw [hst]
    | obj sms => exact decodeStateMembers_get env f sms _ _ (hf h5 sms rfl) hst
    | bool b => cases hst
    | int n => cases hst
    | frac l => cases hst
    | str s => cases hst
    | arr xs => cases hst
  · injection h with h; rw [h]

theorem decodeDeviceMembers_get (env : Env) (f : StateField) (ms : List (String × JSON))
    (v v1 : NukiJSON) (hf : Missing f ms) (h : decodeDeviceMembers env ms v = .ok v1) :
    f.get v1.LastKnownState = f.get v.LastKnownState := by
  induction ms generalizing v with
  | nil => injection h with h; rw [h]
  | cons m rest ih =>
    obtain ⟨key, val⟩ := m
    unfold decodeDeviceMembers at h
    cases hm : decodeDeviceMember env v key val with
    | error e => rw [hm] at h; cases h
    | ok v2 =>
      rw [hm] at h
      rw [ih v2 (fun m hmem => hf m (List.mem_cons_of_mem _ hmem)) h]
      exact decodeDeviceMember_get env f v v2 key val (hf _ (List.mem_cons_self _ _)) hm

theorem get_zero (f : StateField) : f.get LastKnownState.zero = 0 := by
  cases f <;> rfl

theorem decodeDevices_getElem (env : Env) (items : List JSON) (ds : List NukiJSON)
    (h : decodeDevices env items = .ok ds) (i : Nat) (item : JSON)
    (hi : items[i]? = some item) : ∃ d, ds[i]? = some d ∧ decodeDevice env item = .ok d := by
  induction items generalizing ds i with
  | nil => simp at hi
  | cons x rest ih =>
    unfold decodeDevices at h
    cases hx : decodeDevice env x with
    | error e => rw [hx] at h; cases h
    | ok d =>
      rw [hx] at h
      cases hr : decodeDevices env rest with
      | error e => rw [hr] at h; cases h
      | ok ds1 =>
        rw [hr] at h
        injection h with h
        subst h
        cases i with
        | zero =>
          simp only [List.getElem?_cons_zero, Option.some.injEq] at hi
          subst hi
          exact ⟨d, by simp, hx⟩
        | succ j =>
          simp only [List.getElem?_cons_succ] at hi ⊢
          exact ih ds1 hr j hi

theorem mem_deviceWrites (f : StateField) (d : NukiJSON) :
    Event.gaugeSet f.key (deviceTuple d) (f.get d.LastKnownState) ∈ deviceWrites d := by
  cases f <;> simp [deviceWrites, StateField.key, StateField.get]

/-! ## The registry invariant is kept -/

theorem getMetrics_schemaOK (env : Env) (w : World) (hs : SchemaOK w) :
    SchemaOK (getMetrics env w).world := by
  unfold getMetrics
  simp only
  cases env.NewRequest (bridgeURL w) with
  | some err => exact hs
  | none =>
    cases (env.Do (bridgeURL w)).res with
    | none => exact hs
    | some res =>
      simp only
      by_cases hst : res.StatusCode = 200
      · simp only [hst, ne_eq, not_true_eq_false, if_false]
        cases res.BodyErr with
        | some err => exact hs
        | none =>
          cases Unmarshal env res.Body with
          | error e => exact hs
          | ok ds =>
            obtain ⟨w1, h1, W1⟩ := deviceLoop_wrote env ds NukiDevice.zero w hs
            simp only [h1]
            exact W1.schema
      · simp only [hst, ne_eq, not_false_eq_true, if_true]
        exact hs

theorem systemAlive_schemaOK (env : Env) (listenAddress metricsPath : String) (w : World)
    (hs : SchemaOK w) : SchemaOK (systemAlive env listenAddress metricsPath w).world := by
  unfold systemAlive
  simp only
  cases env.Get (metricsURL listenAddress metricsPath) <;> exact hs

theorem publishedWorld_schemaOK : SchemaOK publishedWorld :=
  getMetrics_schemaOK scenarioOneEnv freshWorld (schemaOK_initial _ _)

theorem unmarshal_of_array (env : Env) (body : String) (items : List JSON)
    (ds : List NukiJSON) (hparse : env.parseJSON body = some (.arr items))
    (hdec : decodeDevices env items = .ok ds) : Unmarshal env body = .ok ds := by
  simp only [Unmarshal, hparse, hdec]

theorem mem_flatMap_deviceWrites (ds : List NukiJSON) (d : NukiJSON) (hd : d ∈ ds)
    (key : String) (hk : key ∈ metricKeys) :
    ∃ v, Event.gaugeSet key (deviceTuple d) v ∈ ds.flatMap deviceWrites := by
  simp only [metricKeys, List.mem_cons, List.mem_singleton, List.not_mem_nil, or_false] at hk
  simp only [List.mem_flatMap]
  rcases hk with rfl | rfl | rfl | rfl | rfl | rfl
  · exact ⟨d.LastKnownState.Mode, d, hd, by simp [deviceWrites]⟩
  · exact ⟨d.LastKnownState.State, d, hd, by simp [deviceWrites]⟩
  · exact ⟨d.LastKnownState.DoorsensorState, d, hd, by simp [deviceWrites]⟩
  · exact ⟨d.LastKnownState.BatteryChargeState, d, hd, by simp [deviceWrites]⟩
  · exact ⟨flag d.LastKnownState.BatteryCharging, d, hd, by simp [deviceWrites]⟩
  · exact ⟨flag d.LastKnownState.BatteryCritical, d, hd, by simp [deviceWrites]⟩

theorem scenarioOne_decodes :
    Unmarshal scenarioOneEnv scenarioOneText = .ok [scenarioOneDevice] := by
  rfl

theorem scenarioThree_decodes :
    Unmarshal scenarioThreeEnv scenarioThreeText = .ok [scenarioThreeDevice] := by
  rfl

/-! ## Decimal rendering -/

theorem digitChar_facts : ∀ d < 10, (Nat.digitChar d).isDigit = true ∧
    digitValue (Nat.digitChar d) = d ∧ (d ≠ 0 → Nat.digitChar d ≠ '0') := by
  decide

theorem readDecimal_append (xs : List Char) (c : Char) :
    readDecimal (xs ++ [c]) = 10 * readDecimal xs + digitValue c := by
  simp [readDecimal, List.foldl_append]

theorem toDigitsCore_spec (fuel n : Nat) (ds : List Char) (h : n < fuel) :
    ∃ pre, Nat.toDigitsCore 10 fuel n ds = pre ++ ds ∧ pre.all Char.isDigit = true ∧
      readDecimal pre = n ∧ pre ≠ [] ∧
      ((n = 0 ∧ pre = ['0']) ∨ (n ≠ 0 ∧ pre.head? ≠ some '0')) := by
  induction fuel generalizing n ds with
  | zero => omega
  | succ fuel ih =>
    have hd := digitChar_facts (n % 10) (Nat.mod_lt _ (by decide))
    unfold Nat.toDigitsCore
    simp only
    by_cases h0 : n / 10 = 0
    · simp only [h0, if_true]
      have hn : n % 10 = n := Nat.mod_eq_of_lt (by omega)
      rw [hn] at hd ⊢
      refine ⟨[Nat.digitChar n], rfl, by simp [hd.1], ?_, by simp, ?_⟩
      · simp [readDecimal, hd.2.1]
      · by_cases hz : n = 0
        · subst hz
          exact Or.inl ⟨rfl, rfl⟩
        · exact Or.inr ⟨hz, by simpa using hd.2.2 hz⟩
    · simp only [h0, if_false]
      have hn0 : n ≠ 0 := by
        intro hz
        subst hz
        exact h0 rfl
      obtain ⟨pre, he, hall, hval, hne, hhead⟩ := ih (n / 10) (Nat.digitChar (n % 10) :: ds)
        (by omega)
      refine ⟨pre ++ [Nat.digitChar (n % 10)], by simp [he], ?_, ?_, by simp, Or.inr ⟨hn0, ?_⟩⟩
      · simp [List.all_append, hall, hd.1]
      · rw [readDecimal_append, hval, hd.2.1]; omega
      · rcases hhead with ⟨hz, -⟩ | ⟨-, hh⟩
        · exact absurd hz h0
        · cases pre with
          | nil => exact absurd rfl hne
          | cons c cs => simpa using hh

theorem FormatInt_spec (v : Int) :
    ∃ digits, (FormatInt v).data = (if v < 0 then ['-'] else []) ++ digits ∧
      digits ≠ [] ∧ digits.all Char.isDigit = true ∧ readDecimal digits = v.natAbs ∧
      ((v = 0 ∧ digits = ['0']) ∨ (v ≠ 0 ∧ digits.head? ≠ some '0')) := by
  obtain ⟨pre, he, hall, hval, hne, hhead⟩ := toDigitsCore_spec (v.natAbs + 1) v.natAbs []
    (Nat.lt_succ_self _)
  rw [List.append_nil] at he
  refine ⟨pre, ?_, hne, hall, hval, ?_⟩
  · unfold FormatInt Nat.toDigits
    split <;> simp [he]
  · rcases hhead with ⟨hz, hp⟩ | ⟨hz, hp⟩
    · exact Or.inl ⟨by simpa using hz, hp⟩
    · exact Or.inr ⟨by simpa using hz, hp⟩

/-! ## The claims -/

/-- C1: for every device record the label step of `getMetrics` yields the
label names `devicetype`, `nukiid`, `name`, `firmwareversion` in that order
(the declared order of the `Label` fields, prefix stripped, lower-cased) and a
value list of the same length and order: device type and Nuki ID through
`FormatInt`, name and firmware version unchanged.  `FormatInt` renders in base
10 without padding: a `-` exactly for a negative number, then a non-empty
string of decimal digits that denotes the magnitude, which is the single digit
`0` for the number 0 and does not start with `0` otherwise; so 0 is rendered
as `0` and -7 as `-7`. -/
theorem labelStep_names_and_values (nd : NukiDevice) :
    labelStep nd =
      (["devicetype", "nukiid", "name", "firmwareversion"],
       [FormatInt nd.LabelDeviceType, FormatInt nd.LabelNukiID, nd.LabelName,
        nd.LabelFirmwareVersion]) ∧
    (labelStep nd).2.length = (labelStep nd).1.length ∧
    (∀ v : Int, ∃ digits, (FormatInt v).data = (if v < 0 then ['-'] else []) ++ digits ∧
      digits ≠ [] ∧ digits.all Char.isDigit = true ∧ readDecimal digits = v.natAbs ∧
      ((v = 0 ∧ digits = ['0']) ∨ (v ≠ 0 ∧ digits.head? ≠ some '0'))) ∧
    FormatInt 0 = "0" ∧ FormatInt (-7) = "-7" ∧ FormatInt 1080 = "1080" :=
  ⟨rfl, rfl, FormatInt_spec, by decide, by decide, by decide⟩

/-- C2: on a sound registry, after a 200 response whose body decodes to the
devices `ds`, `getMetrics` returns, and the gauge writes it added to the trace
are, device after device in payload order, the six writes of each device
(mode, state, door-sensor state, battery charge state, charging flag as 0/1,
critical flag as 0/1, all under the device's own tuple).  The block of a device
depends on that device alone, wherever it stands in the array. -/
theorem getMetrics_six_writes_per_device (env : Env) (w : World) (res : Response)
    (ds : List NukiJSON) (hs : SchemaOK w)
    (hreq : env.NewRequest (bridgeURL w) = none)
    (hres : (env.Do (bridgeURL w)).res = some res)
    (hst : res.StatusCode = 200) (hbody : res.BodyErr = none)
    (hdec : Unmarshal env res.Body = .ok ds) :
    ∃ w1 evs, getMetrics env w = .returned w1 ∧ w1.trace = w.trace ++ evs ∧
      evs.filter Event.isGaugeSet = ds.flatMap deviceWrites ∧
      ∀ front d back, ds = front ++ d :: back →
        evs.filter Event.isGaugeSet =
          front.flatMap deviceWrites ++ deviceWrites d ++ back.flatMap deviceWrites := by
  obtain ⟨w1, h1, W1⟩ := getMetrics_wrote env w res ds hs hreq hres hst hbody hdec
  obtain ⟨evs, ht, hg, -⟩ := W1.trace
  refine ⟨w1, evs, h1, ht, hg, ?_⟩
  intro front d back hds
  rw [hg, hds, List.flatMap_append, List.flatMap_cons, List.append_assoc]

/-- Witness of C2: the scenario 1 cycle of a fresh process. -/
theorem getMetrics_six_writes_per_device_witness :
    ∃ w1 evs, getMetrics scenarioOneEnv freshWorld = .returned w1 ∧
      w1.trace = freshWorld.trace ++ evs ∧
      evs.filter Event.isGaugeSet = [scenarioOneDevice].flatMap deviceWrites ∧
      ∀ front d back, [scenarioOneDevice] = front ++ d :: back →
        evs.filter Event.isGaugeSet =
          front.flatMap deviceWrites ++ deviceWrites d ++ back.flatMap deviceWrites :=
  getMetrics_six_writes_per_device scenarioOneEnv freshWorld ⟨200, scenarioOneText, none⟩
    [scenarioOneDevice] (schemaOK_initial _ _) rfl rfl rfl rfl scenarioOne_decodes

/-- C3, as stated, fails: after the scenario 1 cycle of a fresh process the
collectors registered are `nuki_Mode`, `nuki_State`, and so on, no series is
named `mode` (or `nuki_mode`), and the value 2 sits under `Mode`. -/
theorem scenarioOne_names_not_lowercase :
    publishedWorld.registered =
      ["nuki_lastUpdate", "nuki_Mode", "nuki_State", "nuki_DoorsensorState",
        "nuki_BatteryChargeState", "nuki_NumBatteryCharging", "nuki_NumBatteryCritical"] ∧
    "mode" ∉ publishedWorld.registered ∧ "nuki_mode" ∉ publishedWorld.registered ∧
    (publishedWorld.exposed "mode").isNone = true ∧
    publishedWorld.value "mode" frontdoor = none ∧
    publishedWorld.value "Mode" frontdoor = some 2 := by
  decide

/-- C3, amended: on a sound registry, after a 200 response whose body decodes to
`ds`, every metric key `Mode`, `State`, `DoorsensorState`, `BatteryChargeState`,
`NumBatteryCharging`, `NumBatteryCritical` has a vector named `nuki_` followed
by the key as written, with the labels `devicetype`, `nukiid`, `name`,
`firmwareversion`, holding a gauge for the tuple of every device of `ds`; and
the scenario 1 payload yields `nuki_Mode` = 2, `nuki_State` = 3,
`nuki_DoorsensorState` = 1, `nuki_BatteryChargeState` = 80,
`nuki_NumBatteryCharging` = 1, `nuki_NumBatteryCritical` = 0 under the tuple
`0`, `1`, `Frontdoor`, `1.0`. -/
theorem getMetrics_series_names :
    (∀ (env : Env) (w : World) (res : Response) (ds : List NukiJSON), SchemaOK w →
      env.NewRequest (bridgeURL w) = none → (env.Do (bridgeURL w)).res = some res →
      res.StatusCode = 200 → res.BodyErr = none → Unmarshal env res.Body = .ok ds →
      ∃ w1, getMetrics env w = .returned w1 ∧
        ∀ d ∈ ds, ∀ key ∈ metricKeys, ∃ gv, w1.exposed key = some gv ∧
          gv.name = "nuki_" ++ key ∧ gv.labelNames = deviceLabels ∧
          (gv.values (deviceTuple d)).isSome = true) ∧
    (getMetrics scenarioOneEnv freshWorld).isReturned = true ∧
    (publishedWorld.exposed "Mode").map (fun gv => gv.name) = some "nuki_Mode" ∧
    (publishedWorld.exposed "Mode").map (fun gv => gv.labelNames) =
      some ["devicetype", "nukiid", "name", "firmwareversion"] ∧
    publishedWorld.value "Mode" frontdoor = some 2 ∧
    publishedWorld.value "State" frontdoor = some 3 ∧
    publishedWorld.value "DoorsensorState" frontdoor = some 1 ∧
    publishedWorld.value "BatteryChargeState" frontdoor = some 80 ∧
    publishedWorld.value "NumBatteryCharging" frontdoor = some 1 ∧
    publishedWorld.value "NumBatteryCritical" frontdoor = some 0 := by
  refine ⟨?_, by decide, by decide, by decide, by decide, by decide, by decide, by decide,
    by decide, by decide⟩
  intro env w res ds hs hreq hres hst hbody hdec
  obtain ⟨w1, h1, W1⟩ := getMetrics_wrote env w res ds hs hreq hres hst hbody hdec
  refine ⟨w1, h1, ?_⟩
  intro d hd key hk
  obtain ⟨v, hv⟩ := mem_flatMap_deviceWrites ds d hd key hk
  have hsome := W1.series key (deviceTuple d) v hv
  unfold World.value at hsome
  cases hE : w1.exposed key with
  | none => rw [hE] at hsome; cases hsome
  | some gv =>
    rw [hE] at hsome
    obtain ⟨hn, hl⟩ := (W1.schema key hk).1 gv hE
    exact ⟨gv, rfl, hn, hl, hsome⟩

/-- Witness of C3 (amended): the general part at the scenario 1 cycle. -/
theorem getMetrics_series_names_witness :
    ∃ w1, getMetrics scenarioOneEnv freshWorld = .returned w1 ∧
      ∀ d ∈ [scenarioOneDevice], ∀ key ∈ metricKeys, ∃ gv, w1.exposed key = some gv ∧
        gv.name = "nuki_" ++ key ∧ gv.labelNames = deviceLabels ∧
        (gv.values (deviceTuple d)).isSome = true :=
  getMetrics_series_names.1 scenarioOneEnv freshWorld ⟨200, scenarioOneText, none⟩
    [scenarioOneDevice] (schemaOK_initial _ _) rfl rfl rfl rfl scenarioOne_decodes

/-- C4: whatever the registry state and the body, a response whose status is
not 200 makes `getMetrics` return with the map of registered series (and with
it every stored value), the default registry and the freshness gauge exactly as
they were; the only effect is the warning. -/
theorem getMetrics_non200_unchanged (env : Env) (w : World) (res : Response)
    (hreq : env.NewRequest (bridgeURL w) = none)
    (hres : (env.Do (bridgeURL w)).res = some res)
    (hst : res.StatusCode ≠ 200) :
    ∃ w1, getMetrics env w = .returned w1 ∧
      w1.exposed = w.exposed ∧ w1.registered = w.registered ∧ w1.lastUpdate = w.lastUpdate ∧
      w1.trace = w.trace ++
        [.warn ("Could not get metrics: " ++ FormatInt res.StatusCode ++ " - " ++ res.Body)] := by
  refine ⟨w.warn ("Could not get metrics: " ++ FormatInt res.StatusCode ++ " - " ++ res.Body),
    ?_, rfl, rfl, rfl, rfl⟩
  simp only [getMetrics, hreq, hres, hst, ne_eq, not_false_eq_true, if_true]

/-- Witness of C4: a 503 after the scenario 1 cycle. -/
theorem getMetrics_non200_unchanged_witness :
    ∃ w1, getMetrics unavailableEnv publishedWorld = .returned w1 ∧
      w1.exposed = publishedWorld.exposed ∧ w1.registered = publishedWorld.registered ∧
      w1.lastUpdate = publishedWorld.lastUpdate ∧
      w1.trace = publishedWorld.trace ++
        [.warn ("Could not get metrics: " ++ FormatInt 503 ++ " - " ++ "Service Unavailable")] :=
  getMetrics_non200_unchanged unavailableEnv publishedWorld ⟨503, "Service Unavailable", none⟩
    rfl rfl (by decide)

/-- C5, evaluated on the code: when the client returns an error and no
response, `getMetrics` dereferences the nil response and panics; nothing is
logged and the call does not return. -/
theorem getMetrics_transport_failure_panics (env : Env) (w : World) (err : String)
    (hreq : env.NewRequest (bridgeURL w) = none)
    (hdo : env.Do (bridgeURL w) = .failed err) :
    getMetrics env w =
      .panicked w "runtime error: invalid memory address or nil pointer dereference" := by
  simp only [getMetrics, hreq, hdo, HTTPResult.res]

/-- Witness of C5: the bridge of a fresh process is unreachable. -/
theorem getMetrics_transport_failure_panics_witness :
    getMetrics unreachableEnv freshWorld =
      .panicked freshWorld "runtime error: invalid memory address or nil pointer dereference" :=
  getMetrics_transport_failure_panics unreachableEnv freshWorld
    "dial tcp: connect: no route to host" rfl rfl

/-- C6, as stated, fails: the scenario 3 payload (a device object without
`lastKnownState`) decodes without error, the cycle of a fresh process returns
without a warning, registers the six series and writes 0 to each of them. -/
theorem scenarioThree_is_published :
    Unmarshal scenarioThreeEnv scenarioThreeText = .ok [scenarioThreeDevice] ∧
    (getMetrics scenarioThreeEnv freshWorld).isReturned = true ∧
    (getMetrics scenarioThreeEnv freshWorld).world.trace.filter Event.isWarn = [] ∧
    (getMetrics scenarioThreeEnv freshWorld).world.trace.filter Event.isGaugeSet =
      zeroWrites frontdoor ∧
    (getMetrics scenarioThreeEnv freshWorld).world.registered =
      ["nuki_lastUpdate", "nuki_Mode", "nuki_State", "nuki_DoorsensorState",
        "nuki_BatteryChargeState", "nuki_NumBatteryCharging", "nuki_NumBatteryCritical"] ∧
    (getMetrics scenarioThreeEnv freshWorld).world.value "Mode" frontdoor = some 0 ∧
    freshWorld.value "Mode" frontdoor = none := by
  refine ⟨rfl, ?_, ?_, ?_, ?_, ?_, ?_⟩ <;> decide

/-- C6, amended: a missing `lastKnownState`, or a missing member of it, is not
a decode error: an array element decodes exactly when the members it has are
well typed, none being required.  On a sound registry, after a 200 response
whose body is an array of such elements, the body decodes, `getMetrics`
returns and writes the six gauges of every device; for the device decoded from
an object `ms`, each of mode, state, door-sensor state, battery charge state and
charging flag that is missing from its `lastKnownState` is read as zero and
written as 0, and when the object has no `lastKnownState` at all its first five
writes are 0.  The value written for the critical flag when it is missing is
not part of the statement. -/
theorem getMetrics_missing_state_is_zero (env : Env) (w : World) (res : Response)
    (items : List JSON) (hs : SchemaOK w)
    (hreq : env.NewRequest (bridgeURL w) = none)
    (hres : (env.Do (bridgeURL w)).res = some res)
    (hst : res.StatusCode = 200) (hbody : res.BodyErr = none)
    (hparse : env.parseJSON res.Body = some (.arr items))
    (hok : ∀ item ∈ items, deviceOK env item = true) :
    (∀ item : JSON, succeeded (decodeDevice env item) = deviceOK env item) ∧
    ∃ ds w1 evs, Unmarshal env res.Body = .ok ds ∧ decodeDevices env items = .ok ds ∧
      getMetrics env w = .returned w1 ∧ w1.trace = w.trace ++ evs ∧
      evs.filter Event.isGaugeSet = ds.flatMap deviceWrites ∧
      ∀ (i : Nat) (ms : List (String × JSON)), items[i]? = some (JSON.obj ms) →
        ∃ d, ds[i]? = some d ∧
        (∀ f : StateField, f ≠ .batteryCritical → Missing f ms →
          f.get d.LastKnownState = 0 ∧
          Event.gaugeSet f.key (deviceTuple d) 0 ∈ deviceWrites d) ∧
        ((∀ m ∈ ms, EqualFold "lastKnownState" m.1 = false) →
          ∃ c, deviceWrites d =
            [.gaugeSet "Mode" (deviceTuple d) 0, .gaugeSet "State" (deviceTuple d) 0,
              .gaugeSet "DoorsensorState" (deviceTuple d) 0,
              .gaugeSet "BatteryChargeState" (deviceTuple d) 0,
              .gaugeSet "NumBatteryCharging" (deviceTuple d) 0,
              .gaugeSet "NumBatteryCritical" (deviceTuple d) c]) := by
  refine ⟨decodeDevice_succeeded env, ?_⟩
  obtain ⟨ds, hdec⟩ := decodeDevices_of_ok env items hok
  have hun := unmarshal_of_array env res.Body items ds hparse hdec
  obtain ⟨w1, h1, W1⟩ := getMetrics_wrote env w res ds hs hreq hres hst hbody hun
  obtain ⟨evs, ht, hg, -⟩ := W1.trace
  refine ⟨ds, w1, evs, hun, hdec, h1, ht, hg, ?_⟩
  intro i ms hi
  obtain ⟨d, hd, hdev⟩ := decodeDevices_getElem env items ds hdec i (.obj ms) hi
  have hzero : ∀ f : StateField, Missing f ms → f.get d.LastKnownState = 0 := by
    intro f hf
    rw [decodeDeviceMembers_get env f ms NukiJSON.zero d hf hdev]
    exact get_zero f
  refine ⟨d, hd, ?_, ?_⟩
  · intro f _ hf
    have h0 := hzero f hf
    have hm := mem_deviceWrites f d
    rw [h0] at hm
    exact ⟨h0, hm⟩
  · intro hno
    have hall : ∀ f : StateField, f.get d.LastKnownState = 0 := fun f =>
      hzero f (fun m hm hk => by rw [hno m hm] at hk; cases hk)
    have h1 := hall .mode
    have h2 := hall .state
    have h3 := hall .doorsensorState
    have h4 := hall .batteryChargeState
    have h5 := hall .batteryCharging
    simp only [StateField.get] at h1 h2 h3 h4 h5
    exact ⟨flag d.LastKnownState.BatteryCritical, by
      simp only [deviceWrites, h1, h2, h3, h4, h5]⟩

/-- Witness of C6 (amended): the cycle of a fresh process on the two-device
payload, whose first state lacks members and whose second device has no state. -/
theorem getMetrics_missing_state_is_zero_witness :
    (∀ item ∈ [
        JSON.obj [("deviceType", .int 0), ("nukiId", .int 1), ("name", .str "Frontdoor"),
          ("firmwareVersion", .str "1.0"),
          ("lastKnownState", .obj [("mode", .int 4), ("state", .int 1)])],
        JSON.obj [("deviceType", .int 0), ("nukiId", .int 2), ("name", .str "Backdoor"),
          ("firmwareVersion", .str "1.0")]],
      deviceOK scenarioPartialEnv item = true) ∧
    (∀ item : JSON, succeeded (decodeDevice scenarioPartialEnv item) =
      deviceOK scenarioPartialEnv item) ∧
    ∃ ds w1 evs, Unmarshal scenarioPartialEnv scenarioPartialText = .ok ds ∧
      decodeDevices scenarioPartialEnv [
        JSON.obj [("deviceType", .int 0), ("nukiId", .int 1), ("name", .str "Frontdoor"),
          ("firmwareVersion", .str "1.0"),
          ("lastKnownState", .obj [("mode", .int 4), ("state", .int 1)])],
        JSON.obj [("deviceType", .int 0), ("nukiId", .int 2), ("name", .str "Backdoor"),
          ("firmwareVersion", .str "1.0")]] = .ok ds ∧
      getMetrics scenarioPartialEnv freshWorld = .returned w1 ∧
      w1.trace = freshWorld.trace ++ evs ∧
      evs.filter Event.isGaugeSet = ds.flatMap deviceWrites ∧
      ∀ (i : Nat) (ms : List (String × JSON)), [
          JSON.obj [("deviceType", .int 0), ("nukiId", .int 1), ("name", .str "Frontdoor"),
            ("firmwareVersion", .str "1.0"),
            ("lastKnownState", .obj [("mode", .int 4), ("state", .int 1)])],
          JSON.obj [("deviceType", .int 0), ("nukiId", .int 2), ("name", .str "Backdoor"),
            ("firmwareVersion", .str "1.0")]][i]? = some (JSON.obj ms) →
        ∃ d, ds[i]? = some d ∧
        (∀ f : StateField, f ≠ .batteryCritical → Missing f ms →
          f.get d.LastKnownState = 0 ∧
          Event.gaugeSet f.key (deviceTuple d) 0 ∈ deviceWrites d) ∧
        ((∀ m ∈ ms, EqualFold "lastKnownState" m.1 = false) →
          ∃ c, deviceWrites d =
            [.gaugeSet "Mode" (deviceTuple d) 0, .gaugeSet "State" (deviceTuple d) 0,
              .gaugeSet "DoorsensorState" (deviceTuple d) 0,
              .gaugeSet "BatteryChargeState" (deviceTuple d) 0,
              .gaugeSet "NumBatteryCharging" (deviceTuple d) 0,
              .gaugeSet "NumBatteryCritical" (deviceTuple d) c]) :=
  ⟨by decide,
    getMetrics_missing_state_is_zero scenarioPartialEnv freshWorld
      ⟨200, scenarioPartialText, none⟩ _ (schemaOK_initial _ _) rfl rfl rfl rfl rfl
      (by decide)⟩

/-- C7, as stated, fails: `Mode` is registered with the label names `a`, `b`,
`c`, `d`; a call for `Mode` with the device labels, which differ, returns,
logs no error, records the value under the stored schema and touches the
freshness gauge. -/
theorem conflicting_labels_are_accepted :
    (conflictWorld.exposed "Mode").map (fun gv => gv.labelNames) = some ["a", "b", "c", "d"] ∧
    deviceLabels ≠ ["a", "b", "c", "d"] ∧
    conflictWorld.value "Mode" frontdoor = none ∧
    (setPrometheusMetric scenarioOneEnv "Mode" 2 deviceLabels frontdoor conflictWorld).isReturned
      = true ∧
    (setPrometheusMetric scenarioOneEnv "Mode" 2 deviceLabels frontdoor conflictWorld).world.value
      "Mode" frontdoor = some 2 ∧
    (setPrometheusMetric scenarioOneEnv "Mode" 2 deviceLabels frontdoor conflictWorld).world.trace
      = [.gaugeSet "Mode" frontdoor 2, .lastUpdateSet 1700000000] := by
  decide

/-- C7, amended: for a metric name already in `exposed` with the vector `gv`,
`setPrometheusMetric` never looks at the label names it is given.  With as
many label values as `gv` has label names it returns, having stored the value
under that tuple in `gv` (name, label names and the other tuples as before),
registered nothing and logged nothing; with another number of values the
lookup panics and the state is as before. -/
theorem setPrometheusMetric_existing_name (env : Env) (w : World) (key : String)
    (gv : GaugeVec) (value : Int) (labels lv : List String)
    (hgv : w.exposed key = some gv) :
    (lv.length = gv.labelNames.length →
      ∃ w1 gv1, setPrometheusMetric env key value labels lv w = .returned w1 ∧
        w1.exposed key = some gv1 ∧ gv1.name = gv.name ∧ gv1.labelNames = gv.labelNames ∧
        gv1.values lv = some (float64OfInt value) ∧
        (∀ t, t ≠ lv → gv1.values t = gv.values t) ∧
        w1.registered = w.registered ∧
        w1.trace = w.trace ++ [.gaugeSet key lv value, .lastUpdateSet (env.now w.clockReads)]) ∧
    (lv.length ≠ gv.labelNames.length →
      setPrometheusMetric env key value labels lv w =
        .panicked w "inconsistent label cardinality") := by
  have hr : setPrometheusMetric env key value labels lv w = setAndTouch env key value lv gv w := by
    simp only [setPrometheusMetric, hgv]
  rw [hr]
  constructor
  · intro hlen
    refine ⟨(setAndTouch env key value lv gv w).world, GaugeVec.mk gv.name gv.labelNames
      (fun t => if t = lv then some (float64OfInt value) else gv.values t),
      ?_, ?_, rfl, rfl, ?_, ?_, ?_, ?_⟩
    · simp only [setAndTouch, hlen, ne_eq, not_true_eq_false, if_false]
      rfl
    · simp [setAndTouch, hlen, Outcome.world, World.emit]
    · simp
    · intro t ht; simp [ht]
    · simp [setAndTouch, hlen, Outcome.world, World.emit]
    · simp [setAndTouch, hlen, Outcome.world, World.emit]
  · intro hlen
    simp only [setAndTouch, hlen, ne_eq, not_false_eq_true, if_true]

/-- Witness of C7 (amended): the conflicting call on `Mode`. -/
theorem setPrometheusMetric_existing_name_witness :
    (frontdoor.length = ["a", "b", "c", "d"].length →
      ∃ w1 gv1, setPrometheusMetric scenarioOneEnv "Mode" 2 deviceLabels frontdoor conflictWorld
          = .returned w1 ∧
        w1.exposed "Mode" = some gv1 ∧ gv1.name = "nuki_Mode" ∧
        gv1.labelNames = ["a", "b", "c", "d"] ∧
        gv1.values frontdoor = some (float64OfInt 2) ∧
        (∀ t, t ≠ frontdoor →
          gv1.values t = if t = ["1", "2", "3", "4"] then some 7 else none) ∧
        w1.registered = conflictWorld.registered ∧
        w1.trace = conflictWorld.trace ++
          [.gaugeSet "Mode" frontdoor 2,
            .lastUpdateSet (scenarioOneEnv.now conflictWorld.clockReads)]) ∧
    (frontdoor.length ≠ ["a", "b", "c", "d"].length →
      setPrometheusMetric scenarioOneEnv "Mode" 2 deviceLabels frontdoor conflictWorld =
        .panicked conflictWorld "inconsistent label cardinality") :=
  setPrometheusMetric_existing_name scenarioOneEnv conflictWorld "Mode"
    { name := "nuki_Mode", labelNames := ["a", "b", "c", "d"],
      values := fun t => if t = ["1", "2", "3", "4"] then some 7 else none }
    2 deviceLabels frontdoor rfl

/-- C8: a series value held before a cycle is still held in the state the
cycle ends in, whatever the response and the payload, and it is the same value
unless a device of the payload produces its label-value tuple; likewise a call
of `setPrometheusMetric` keeps every held value, unchanged unless it is given
that very tuple.  Nothing is ever removed or reset; the gauges of the freshness
vector, of which the one of `scope="global"` is the only one rewritten, are
never removed either. -/
theorem series_are_retained (env : Env) (w : World) (key : String) (t : List String) (v : Int)
    (hv : w.value key t = some v) :
    ((getMetrics env w).world.value key t).isSome = true ∧
    (t ∉ payloadTuples env w → (getMetrics env w).world.value key t = some v) ∧
    (∀ (k : String) (value : Int) (labels lv : List String),
      ((setPrometheusMetric env k value labels lv w).world.value key t).isSome = true ∧
      (t ≠ lv → (setPrometheusMetric env k value labels lv w).world.value key t = some v)) ∧
    KeepsFreshness w (getMetrics env w).world ∧
    (∀ (k : String) (value : Int) (labels lv : List String),
      KeepsFreshness w (setPrometheusMetric env k value labels lv w).world) := by
  refine ⟨(getMetrics_retains env w key t v hv).1, (getMetrics_retains env w key t v hv).2, ?_,
    getMetrics_keepsFreshness env w, fun k value labels lv =>
      setPrometheusMetric_keepsFreshness env k value labels lv w⟩
  intro k value labels lv
  have h := setPrometheusMetric_retains env k value labels lv w key t v hv
  exact ⟨h.1, fun hne => h.2 (by simpa using hne)⟩

/-- Witness of C8: the front door series after a cycle with an empty payload. -/
theorem series_are_retained_witness :
    publishedWorld.value "Mode" frontdoor = some 2 ∧
    ((getMetrics emptyEnv publishedWorld).world.value "Mode" frontdoor).isSome = true ∧
    (frontdoor ∉ payloadTuples emptyEnv publishedWorld →
      (getMetrics emptyEnv publishedWorld).world.value "Mode" frontdoor = some 2) ∧
    (∀ (k : String) (value : Int) (labels lv : List String),
      ((setPrometheusMetric emptyEnv k value labels lv publishedWorld).world.value
        "Mode" frontdoor).isSome = true ∧
      (frontdoor ≠ lv →
        (setPrometheusMetric emptyEnv k value labels lv publishedWorld).world.value
          "Mode" frontdoor = some 2)) ∧
    KeepsFreshness publishedWorld (getMetrics emptyEnv publishedWorld).world ∧
    (∀ (k : String) (value : Int) (labels lv : List String),
      KeepsFreshness publishedWorld
        (setPrometheusMetric emptyEnv k value labels lv publishedWorld).world) :=
  ⟨by decide, series_are_retained emptyEnv publishedWorld "Mode" frontdoor 2 (by decide)⟩

/-- C9, as stated, fails: the cycle on the empty array is successful (the body
decodes, the call returns, nothing is logged) and never sets the freshness
gauge, which stays without a value; and the one-device cycle of scenario 1
sets it six times, not once. -/
theorem freshness_not_set_once :
    Unmarshal emptyEnv "[]" = .ok [] ∧
    (getMetrics emptyEnv freshWorld).isReturned = true ∧
    (getMetrics emptyEnv freshWorld).world.trace = [] ∧
    (getMetrics emptyEnv freshWorld).world.lastUpdate ["global"] = none ∧
    publishedWorld.trace.filter Event.isLastUpdateSet =
      [.lastUpdateSet 1700000000, .lastUpdateSet 1700000001, .lastUpdateSet 1700000002,
        .lastUpdateSet 1700000003, .lastUpdateSet 1700000004, .lastUpdateSet 1700000005] := by
  refine ⟨rfl, ?_, ?_, ?_, ?_⟩ <;> decide

/-- C9, amended: on a sound registry, after a 200 response whose body decodes to
`ds`, `getMetrics` returns having set the freshness gauge once per metric
write, six times per device, each time to the seconds of a fresh clock
reading; it ends at the reading of the last write, and with an empty payload it
is not set and keeps its gauges. -/
theorem getMetrics_touches_freshness_per_write (env : Env) (w : World) (res : Response)
    (ds : List NukiJSON) (hs : SchemaOK w)
    (hreq : env.NewRequest (bridgeURL w) = none)
    (hres : (env.Do (bridgeURL w)).res = some res)
    (hst : res.StatusCode = 200) (hbody : res.BodyErr = none)
    (hdec : Unmarshal env res.Body = .ok ds) :
    ∃ w1 evs, getMetrics env w = .returned w1 ∧ w1.trace = w.trace ++ evs ∧
      evs.filter Event.isLastUpdateSet =
        (List.range (6 * ds.length)).map
          (fun i => Event.lastUpdateSet (env.now (w.clockReads + i))) ∧
      (ds = [] → ∀ t, w1.lastUpdate t = w.lastUpdate t) ∧
      (ds ≠ [] → w1.lastUpdate ["global"] =
        some (float64OfInt (env.now (w.clockReads + 6 * ds.length - 1)))) := by
  obtain ⟨w1, h1, W1⟩ := getMetrics_wrote env w res ds hs hreq hres hst hbody hdec
  obtain ⟨evs, ht, -, hl⟩ := W1.trace
  have hlen := length_flatMap_deviceWrites ds
  refine ⟨w1, evs, h1, ht, ?_, ?_, ?_⟩
  · rw [hl, hlen]
  · intro hnil
    exact W1.touchedNone (by rw [hnil]; rfl)
  · intro hne
    have hpos : 0 < ds.length := List.length_pos.mpr hne
    have hws : ds.flatMap deviceWrites ≠ [] := by
      intro h0
      rw [h0] at hlen
      simp only [List.length_nil] at hlen
      omega
    rw [W1.touchedSome hws, W1.clock, hlen]

/-- Witness of C9 (amended): the scenario 1 cycle of a fresh process. -/
theorem getMetrics_touches_freshness_per_write_witness :
    ∃ w1 evs, getMetrics scenarioOneEnv freshWorld = .returned w1 ∧
      w1.trace = freshWorld.trace ++ evs ∧
      evs.filter Event.isLastUpdateSet =
        (List.range (6 * [scenarioOneDevice].length)).map
          (fun i => Event.lastUpdateSet (scenarioOneEnv.now (freshWorld.clockReads + i))) ∧
      ([scenarioOneDevice] = [] → ∀ t, w1.lastUpdate t = freshWorld.lastUpdate t) ∧
      ([scenarioOneDevice] ≠ [] → w1.lastUpdate ["global"] =
        some (float64OfInt
          (scenarioOneEnv.now (freshWorld.clockReads + 6 * [scenarioOneDevice].length - 1)))) :=
  getMetrics_touches_freshness_per_write scenarioOneEnv freshWorld
    ⟨200, scenarioOneText, none⟩ [scenarioOneDevice] (schemaOK_initial _ _) rfl rfl rfl rfl
    scenarioOne_decodes

/-- C10, evaluated on the code: when `http.Get` returns an error and no
response, `systemAlive` logs the warning, sends no watchdog signal, and then
panics on `res.Body`: it does not return. -/
theorem systemAlive_failed_read_panics (env : Env) (listenAddress metricsPath : String)
    (w : World) (err : String)
    (hget : env.Get (metricsURL listenAddress metricsPath) = .failed err) :
    systemAlive env listenAddress metricsPath w =
      .panicked (w.warn ("liveness check failed: " ++ err))
        "runtime error: invalid memory address or nil pointer dereference" := by
  simp only [systemAlive, hget, HTTPResult.res, HTTPResult.err]

/-- Witness of C10: the exporter's own endpoint refuses the connection. -/
theorem systemAlive_failed_read_panics_witness :
    systemAlive scenarioOneEnv ":9314" "/metrics" publishedWorld =
      .panicked (publishedWorld.warn ("liveness check failed: " ++
          "dial tcp 127.0.0.1:9314: connect: connection refused"))
        "runtime error: invalid memory address or nil pointer dereference" :=
  systemAlive_failed_read_panics scenarioOneEnv ":9314" "/metrics" publishedWorld
    "dial tcp 127.0.0.1:9314: connect: connection refused" rfl

end NukiExporter
